import Mathlib

/-!
Shallow embedding of the field-extraction engine of `src/main.py` (an
INE/IFE voter-credential OCR post-processor).

Modelling conventions:

* Python strings are Lean `String`s (lists of unicode characters); all
  character-level work happens on `List Char`.
* Every regular expression used by the source is implemented as a bespoke
  executable matcher following Python `re.search` semantics: leftmost
  match, greedy/lazy quantifiers with backtracking, `\b` word boundaries.
  Word characters (`\w`), whitespace (`\s`) and upper-casing are modelled
  over the character repertoire this document class produces (ASCII plus
  the Spanish letters `ÁÉÍÓÚÜÑ` and their lower-case forms).
* `datetime.now().year` is passed in explicitly as `anioActual`.
* Python `int(...)` can raise `ValueError`; it is modelled by the
  `Option`-returning `pyIntOpt`, and functions that can therefore raise
  (`extraer_datos_desde_curp` and its callers) return `Option`.
-/

namespace IneOcr

/-- Decimal digit characters (regex `\d`, `str.isdigit`). -/
def esDigito (c : Char) : Bool :=
  c == '0' || c == '1' || c == '2' || c == '3' || c == '4' ||
  c == '5' || c == '6' || c == '7' || c == '8' || c == '9'

/-- Whitespace characters (regex `\s`, `str.strip`, `str.split`):
space, tab, newline, carriage return, vertical tab, form feed. -/
def pyIsSpace (c : Char) : Bool :=
  c == ' ' || c == '\t' || c == '\n' || c == '\r' ||
  c == Char.ofNat 11 || c == Char.ofNat 12

/-- ASCII upper-case letters `[A-Z]`. -/
def esMayuscula (c : Char) : Bool := 'A' ≤ c && c ≤ 'Z'

/-- ASCII lower-case letters `[a-z]`. -/
def esMinuscula (c : Char) : Bool := 'a' ≤ c && c ≤ 'z'

/-- Upper-case accented Spanish letters appearing in the source's
character classes. -/
def esAcentuadaMayus (c : Char) : Bool :=
  c == 'Á' || c == 'É' || c == 'Í' || c == 'Ó' || c == 'Ú' || c == 'Ü' || c == 'Ñ'

/-- Lower-case accented Spanish letters. -/
def esAcentuadaMinus (c : Char) : Bool :=
  c == 'á' || c == 'é' || c == 'í' || c == 'ó' || c == 'ú' || c == 'ü' || c == 'ñ'

/-- The class `[A-ZÁÉÍÓÚÜÑ]` used throughout the source. -/
def esLetraEsp (c : Char) : Bool := esMayuscula c || esAcentuadaMayus c

/-- Word characters for `\b` / `\w` (Python `re` is unicode-aware; we model
the letters occurring in this document class: ASCII letters, digits,
underscore and the Spanish accented letters). -/
def pyIsWordChar (c : Char) : Bool :=
  esMayuscula c || esMinuscula c || esDigito c || c == '_' ||
  esAcentuadaMayus c || esAcentuadaMinus c

/-- The vowel class `[AEIOUÁÉÍÓÚÜ]` of `_primera_vocal_interna`. -/
def esVocalCurp (c : Char) : Bool :=
  c == 'A' || c == 'E' || c == 'I' || c == 'O' || c == 'U' ||
  c == 'Á' || c == 'É' || c == 'Í' || c == 'Ó' || c == 'Ú' || c == 'Ü'

/-- Alphanumeric upper-case class `[A-Z0-9]` / `[0-9A-Z]`. -/
def esAlnumMayus (c : Char) : Bool := esMayuscula c || esDigito c

/-- Lower-case to upper-case character map of Python `str.upper()` on this
document class's repertoire. -/
def tablaMayusculas : List (Char × Char) :=
  [('a','A'),('b','B'),('c','C'),('d','D'),('e','E'),('f','F'),('g','G'),
   ('h','H'),('i','I'),('j','J'),('k','K'),('l','L'),('m','M'),('n','N'),
   ('o','O'),('p','P'),('q','Q'),('r','R'),('s','S'),('t','T'),('u','U'),
   ('v','V'),('w','W'),('x','X'),('y','Y'),('z','Z'),
   ('á','Á'),('é','É'),('í','Í'),('ó','Ó'),('ú','Ú'),('ü','Ü'),('ñ','Ñ')]

/-- Python `str.upper()` on a single character. -/
def pyUpperChar (c : Char) : Char := (tablaMayusculas.lookup c).getD c

/-- Python `str.upper()` over a character list. -/
def upperL (l : List Char) : List Char := l.map pyUpperChar

/-- Python `str.upper()`. -/
def pyUpper (s : String) : String := ⟨upperL s.data⟩

/-- Python `str.strip()` over a character list. -/
def pyStripL (l : List Char) : List Char :=
  ((l.dropWhile pyIsSpace).reverse.dropWhile pyIsSpace).reverse

/-- Python `str.strip()`. -/
def pyStrip (s : String) : String := ⟨pyStripL s.data⟩

/-- Helper of `collapseWS`: the Bool records whether the previous emitted
character came from a whitespace run. -/
def collapseAux : Bool → List Char → List Char
  | _, [] => []
  | prevSp, c :: cs =>
    if pyIsSpace c then
      if prevSp then collapseAux true cs
      else ' ' :: collapseAux true cs
    else c :: collapseAux false cs

/-- Python `re.sub(r'\s+', ' ', ...)`: every maximal whitespace run becomes
a single space. -/
def collapseWS (l : List Char) : List Char := collapseAux false l

/-- Helper of `splitWSL`; the accumulator holds the current token reversed. -/
def splitWSAux : List Char → List Char → List (List Char)
  | acc, [] => if acc.isEmpty then [] else [acc.reverse]
  | acc, c :: cs =>
    if pyIsSpace c then
      if acc.isEmpty then splitWSAux [] cs
      else acc.reverse :: splitWSAux [] cs
    else splitWSAux (c :: acc) cs

/-- Python `str.split()` (no argument): split on whitespace runs,
discarding empty pieces. -/
def splitWSL (l : List Char) : List (List Char) := splitWSAux [] l

/-- Python `str.split()` on a `String`. -/
def pySplit (s : String) : List String := (splitWSL s.data).map (fun w => ⟨w⟩)

/-- Python `" ".join(...)` over character lists. -/
def joinSpL : List (List Char) → List Char
  | [] => []
  | [t] => t
  | t :: ts => t ++ ' ' :: joinSpL ts

/-- Python `" ".join(...)`. -/
def joinSp (ls : List String) : String := ⟨joinSpL (ls.map String.data)⟩

/-- Python `str.split('/')` (keeps empty pieces). -/
def splitSlash : List Char → List (List Char)
  | [] => [[]]
  | c :: cs =>
    if c == '/' then [] :: splitSlash cs
    else match splitSlash cs with
         | [] => [[c]]
         | t :: ts => (c :: t) :: ts

/-- Does `pre` start `l`? -/
def esPrefijoDe : List Char → List Char → Bool
  | [], _ => true
  | _ :: _, [] => false
  | a :: as, b :: bs => a == b && esPrefijoDe as bs

/-- Does `sub` occur inside `l`? (Python `sub in s`.) -/
def esInfijoDe (sub : List Char) : List Char → Bool
  | [] => esPrefijoDe sub []
  | c :: cs => esPrefijoDe sub (c :: cs) || esInfijoDe sub cs

/-- Python `sub in s` on `String`s. -/
def contiene (s sub : String) : Bool := esInfijoDe sub.data s.data

/-- Does the list contain a decimal digit (`any(ch.isdigit() ...)`)? -/
def hasDigitL (l : List Char) : Bool := l.any esDigito

/-- Numeric value of a digit character. -/
def valorDigito (c : Char) : Nat :=
  (([('0',0),('1',1),('2',2),('3',3),('4',4),('5',5),('6',6),('7',7),('8',8),
     ('9',9)] : List (Char × Nat)).lookup c).getD 0

/-- Value of a digit string (most significant first). -/
def natOfDigits (l : List Char) : Nat :=
  l.foldl (fun a c => 10 * a + valorDigito c) 0

/-- Python `int(str)`: optional surrounding whitespace, optional sign,
then a non-empty digit run; anything else raises `ValueError` (`none`). -/
def pyIntOpt (l : List Char) : Option Int :=
  match pyStripL l with
  | '+' :: ds =>
    if ds ≠ [] ∧ ds.all esDigito then some ((natOfDigits ds : Int)) else none
  | '-' :: ds =>
    if ds ≠ [] ∧ ds.all esDigito then some (-(natOfDigits ds : Int)) else none
  | ds =>
    if ds ≠ [] ∧ ds.all esDigito then some ((natOfDigits ds : Int)) else none

/-- Python `str(n)` for a natural number. -/
def natToStr (n : Nat) : String := toString n

/-! ## Regex matchers

Each Python regex used by the source gets a bespoke anchored matcher
(`try...`, attempting a match at the current position, given the previous
character for `\b` tests) plus the generic left-to-right scanner
`searchAux` implementing `re.search`. -/

/-- Is the optional previous/next character a word character (for `\b`)? -/
def wordB : Option Char → Bool
  | none => false
  | some c => pyIsWordChar c

/-- Generic `re.search` scan: try a match at every position, leftmost wins. -/
def searchAux (f : Option Char → List Char → Option α) :
    Option Char → List Char → Option α
  | prev, [] => f prev []
  | prev, c :: cs =>
    match f prev (c :: cs) with
    | some r => some r
    | none => searchAux f (some c) cs

/-- Take exactly `n` characters satisfying `p`, returning them and the rest. -/
def takeExact (p : Char → Bool) : Nat → List Char → Option (List Char × List Char)
  | 0, l => some ([], l)
  | _ + 1, [] => none
  | n + 1, c :: cs =>
    if p c then (takeExact p n cs).map (fun r => (c :: r.1, r.2)) else none

/-- Tail `[A-Z]{5,6}[0-9A-Z]` of the CURP pattern (greedy: 6 letters first). -/
def colaCurp (conBorde : Bool) (r : List Char) : Option (List Char) :=
  let intenta (n : Nat) : Option (List Char) :=
    match takeExact esMayuscula n r with
    | some (ls, k :: resto) =>
      if esAlnumMayus k && (!conBorde || !(wordB resto.head?))
      then some (ls ++ [k]) else none
    | _ => none
  (intenta 6).orElse fun _ => intenta 5

/-- Anchored match of `([A-Z]{4}[0-9]{6}[HMX][A-Z]{5,6}[0-9A-Z])`
(the CURP pattern of `buscar_en_lista`, no word boundaries). -/
def tryCurp (_ : Option Char) (l : List Char) : Option (List Char) :=
  match takeExact esMayuscula 4 l with
  | some (ls, r1) =>
    match takeExact esDigito 6 r1 with
    | some (ds, h :: r3) =>
      if h == 'H' || h == 'M' || h == 'X' then
        match colaCurp false r3 with
        | some cola => some (ls ++ ds ++ h :: cola)
        | none => none
      else none
    | _ => none
  | none => none

/-- Anchored match of `\b[A-Z]{4}\d{6}[HMX][A-Z]{5,6}[0-9A-Z]\b`
(the CURP shape test of `clasificar_tipo_credencial`). -/
def tryCurpB (prev : Option Char) (l : List Char) : Option (List Char) :=
  if wordB prev then none else
  match takeExact esMayuscula 4 l with
  | some (ls, r1) =>
    match takeExact esDigito 6 r1 with
    | some (ds, h :: r3) =>
      if h == 'H' || h == 'M' || h == 'X' then
        match colaCurp true r3 with
        | some cola => some (ls ++ ds ++ h :: cola)
        | none => none
      else none
    | _ => none
  | none => none

/-- Anchored match of `\b([A-Z0-9]{18})\b`. -/
def tryClave18 (prev : Option Char) (l : List Char) : Option (List Char) :=
  if wordB prev then none else
  match takeExact esAlnumMayus 18 l with
  | some (g, r) => if wordB r.head? then none else some g
  | none => none

/-- Anchored match of `\b([A-Z]{6}\d{8,10}[A-Z0-9]{2,4})\b`
(greedy with backtracking on both bounded quantifiers). -/
def tryClaveLoose (prev : Option Char) (l : List Char) : Option (List Char) :=
  if wordB prev then none else
  match takeExact esMayuscula 6 l with
  | some (ls, r1) =>
    let intentaD (d : Nat) : Option (List Char) :=
      match takeExact esDigito d r1 with
      | some (ds, r2) =>
        let intentaA (a : Nat) : Option (List Char) :=
          match takeExact esAlnumMayus a r2 with
          | some (as, r3) =>
            if wordB r3.head? then none else some (ls ++ ds ++ as)
          | none => none
        (intentaA 4).orElse fun _ => (intentaA 3).orElse fun _ => intentaA 2
      | none => none
    (intentaD 10).orElse fun _ => (intentaD 9).orElse fun _ => intentaD 8
  | none => none

/-- Anchored match of `\b(\d{2}/\d{2}/\d{4})\b` (birth-date pattern). -/
def tryFecha (prev : Option Char) (l : List Char) : Option (List Char) :=
  if wordB prev then none else
  match takeExact esDigito 2 l with
  | some (d1, '/' :: r1) =>
    match takeExact esDigito 2 r1 with
    | some (d2, '/' :: r2) =>
      match takeExact esDigito 4 r2 with
      | some (d3, r3) =>
        if wordB r3.head? then none
        else some (d1 ++ '/' :: d2 ++ '/' :: d3)
      | none => none
    | _ => none
  | _ => none

/-- Anchored match of `(\d{4}\s\d+)` (registration-year pattern; a single
whitespace character between the two digit runs, no word boundaries). -/
def tryAnioReg (_ : Option Char) (l : List Char) : Option (List Char) :=
  match takeExact esDigito 4 l with
  | some (d4, sp :: r1) =>
    if pyIsSpace sp then
      let ds := r1.takeWhile esDigito
      if ds.isEmpty then none else some (d4 ++ sp :: ds)
    else none
  | _ => none

/-- Anchored match of `\b(\d{n})\b` for the section (`n = 4`) and postal
code (`n = 5`) patterns. -/
def tryDigitosB (n : Nat) (prev : Option Char) (l : List Char) : Option (List Char) :=
  if wordB prev then none else
  match takeExact esDigito n l with
  | some (ds, r) => if wordB r.head? then none else some ds
  | none => none

/-- Anchored match of `\b(H|M|X)\b` (sex pattern). -/
def trySexo (prev : Option Char) : List Char → Option (List Char)
  | c :: cs =>
    if !(wordB prev) && (c == 'H' || c == 'M' || c == 'X') && !(wordB cs.head?)
    then some [c] else none
  | [] => none

/-- Anchored match of `(\d{4}\s*[-]?\s*?\d{4})` (the loose validity
fallback pattern).  The separator region between the digit runs is forced
by the text: a space run, an optional single hyphen, a space run. -/
def tryVigLoose (_ : Option Char) (l : List Char) : Option (List Char) :=
  match takeExact esDigito 4 l with
  | some (d1, r1) =>
    let par := r1.span pyIsSpace
    (match par.2 with
     | '-' :: r3 =>
       let par2 := r3.span pyIsSpace
       (match takeExact esDigito 4 par2.2 with
        | some (d2, _) => some (d1 ++ par.1 ++ '-' :: (par2.1 ++ d2))
        | none => none)
     | r2 =>
       match takeExact esDigito 4 r2 with
       | some (d2, _) => some (d1 ++ par.1 ++ d2)
       | none => none)
  | none => none

/-- Anchored match of `\b(\d{4}\s*[-]\s*\d{4})\b` (direct validity
pattern), returned in structured form `(d1, s1, s2, d2)` with the group
being `d1 ++ s1 ++ '-' :: (s2 ++ d2)`. -/
def tryVigDirect (prev : Option Char) (l : List Char) :
    Option (List Char × List Char × List Char × List Char) :=
  if wordB prev then none else
  match takeExact esDigito 4 l with
  | some (d1, r1) =>
    let par := r1.span pyIsSpace
    (match par.2 with
     | '-' :: r3 =>
       let par2 := r3.span pyIsSpace
       (match takeExact esDigito 4 par2.2 with
        | some (d2, r5) =>
          if wordB r5.head? then none else some (d1, par.1, par2.1, d2)
        | none => none)
     | _ => none)
  | none => none

/-- Anchored match of `(\d{4}\s*[-\s]+\s*\d{4})` (validity on a following
line): two 4-digit runs separated by a non-empty run of spaces/hyphens. -/
def tryVigNext (_ : Option Char) (l : List Char) : Option (List Char) :=
  match takeExact esDigito 4 l with
  | some (d1, r1) =>
    let par := r1.span (fun c => pyIsSpace c || c == '-')
    if par.1.isEmpty then none else
    match takeExact esDigito 4 par.2 with
    | some (d2, _) => some (d1 ++ par.1 ++ d2)
    | none => none
  | none => none

/-- Anchored match of `VIGENCIA\s*[:\-]?\s*(\d{4}\s*[-\s]+\s*\d{4})`
(validity on the label's own line); returns the year group. -/
def tryVigSameLine (_ : Option Char) (l : List Char) : Option (List Char) :=
  if esPrefijoDe "VIGENCIA".data l then
    let r0 := l.drop 8
    let r1 := r0.dropWhile pyIsSpace
    let r2 := match r1 with
              | ':' :: t => t.dropWhile pyIsSpace
              | '-' :: t => t.dropWhile pyIsSpace
              | _ => r1
    tryVigNext none r2
  else none

/-- Anchored match of `\b(19\d{2}|20\d{2})\b` (plausible-year group). -/
def tryYear (prev : Option Char) (l : List Char) : Option (List Char) :=
  if wordB prev then none else
  match l with
  | a :: b :: c :: d :: rest =>
    if ((a == '1' && b == '9') || (a == '2' && b == '0'))
       && esDigito c && esDigito d && !(wordB rest.head?)
    then some [a, b, c, d] else none
  | _ => none

/-- Anchored match of `\b(19\d{2}|20[0-2]\d)\b` (registration-year shape
inside the elector key). -/
def tryYearClave (prev : Option Char) (l : List Char) : Option (List Char) :=
  if wordB prev then none else
  match l with
  | a :: b :: c :: d :: rest =>
    if ((a == '1' && b == '9' && esDigito c)
        || (a == '2' && b == '0' && (c == '0' || c == '1' || c == '2')))
       && esDigito d && !(wordB rest.head?)
    then some [a, b, c, d] else none
  | _ => none

/-- Python `re.findall(r'\d{4}', s)`: non-overlapping 4-digit runs. -/
def findall4 : List Char → List (List Char)
  | a :: b :: c :: d :: rest =>
    if esDigito a && esDigito b && esDigito c && esDigito d
    then [a, b, c, d] :: findall4 rest
    else findall4 (b :: c :: d :: rest)
  | _ => []

/-- Python `re.findall(r'\b(19\d{2}|20\d{2})\b', s)`: non-overlapping
boundary-delimited year matches, carrying the previous character. -/
def findallYearsAux (prev : Option Char) : List Char → List (List Char)
  | a :: b :: c :: d :: rest =>
    if !(wordB prev) && ((a == '1' && b == '9') || (a == '2' && b == '0'))
       && esDigito c && esDigito d && !(wordB rest.head?)
    then [a, b, c, d] :: findallYearsAux (some d) rest
    else findallYearsAux (some a) (b :: c :: d :: rest)
  | a :: rest => findallYearsAux (some a) rest
  | [] => []

/-- `re.findall` of the plausible-year pattern on a whole list. -/
def findallYears (l : List Char) : List (List Char) := findallYearsAux none l

/-- `re.finditer(r'\b(19\d{2}|20[0-2]\d)\b', s)` as a list of groups. -/
def findallYearsClaveAux (prev : Option Char) : List Char → List (List Char)
  | a :: b :: c :: d :: rest =>
    if !(wordB prev)
       && ((a == '1' && b == '9' && esDigito c)
           || (a == '2' && b == '0' && (c == '0' || c == '1' || c == '2')))
       && esDigito d && !(wordB rest.head?)
    then [a, b, c, d] :: findallYearsClaveAux (some d) rest
    else findallYearsClaveAux (some a) (b :: c :: d :: rest)
  | a :: rest => findallYearsClaveAux (some a) rest
  | [] => []

/-- Word-with-boundaries search (`\bIFE\b`, `\bINE\b`): matcher at one
position. -/
def tryPalabra (w : List Char) (prev : Option Char) (l : List Char) : Option Unit :=
  if !(wordB prev) && esPrefijoDe w l && !(wordB ((l.drop w.length).head?))
  then some () else none

/-- `re.search(r'\bW\b', s) is not None` for a literal word `W`. -/
def buscaPalabra (w : List Char) (l : List Char) : Bool :=
  (searchAux (tryPalabra w) none l).isSome

/-- Anchored match of `CLAVE\s*DE\s*<fin>` (`fin` = `ELECTOR` or `ELEC`). -/
def tryClaveDe (fin : List Char) (_ : Option Char) (l : List Char) : Option Unit :=
  if esPrefijoDe "CLAVE".data l then
    let r1 := (l.drop 5).dropWhile pyIsSpace
    if esPrefijoDe "DE".data r1 then
      let r2 := (r1.drop 2).dropWhile pyIsSpace
      if esPrefijoDe fin r2 then some () else none
    else none
  else none

/-- Anchored match of `W1\s+W2` (for `PARA\s+VOTAR`, `ESTADOS\s+UNIDOS`). -/
def tryDosPalabras (w1 w2 : List Char) (_ : Option Char) (l : List Char) : Option Unit :=
  if esPrefijoDe w1 l then
    let par := (l.drop w1.length).span pyIsSpace
    if !par.1.isEmpty && esPrefijoDe w2 par.2 then some () else none
  else none

/-- `re.search` of the name-extractor blacklist
`(INSTITUTO|NACIONAL|ELECTORAL|CREDENCIAL|PARA\s+VOTAR|M[EÉ]XICO|ESTADOS\s+UNIDOS)`. -/
def enListaNegra (l : List Char) : Bool :=
  esInfijoDe "INSTITUTO".data l || esInfijoDe "NACIONAL".data l ||
  esInfijoDe "ELECTORAL".data l || esInfijoDe "CREDENCIAL".data l ||
  (searchAux (tryDosPalabras "PARA".data "VOTAR".data) none l).isSome ||
  esInfijoDe "MEXICO".data l || esInfijoDe "MÉXICO".data l ||
  (searchAux (tryDosPalabras "ESTADOS".data "UNIDOS".data) none l).isSome

/-- `re.search` of the stop-label alternation
`(DOMICILIO|CLAVE|CURP|FECHA|SECCI[ÓO]N|AÑO|REGISTRO|VIGENCIA|SEXO|EDAD)`. -/
def esEtiquetaCorte (l : List Char) : Bool :=
  esInfijoDe "DOMICILIO".data l || esInfijoDe "CLAVE".data l ||
  esInfijoDe "CURP".data l || esInfijoDe "FECHA".data l ||
  esInfijoDe "SECCIÓN".data l || esInfijoDe "SECCION".data l ||
  esInfijoDe "AÑO".data l || esInfijoDe "REGISTRO".data l ||
  esInfijoDe "VIGENCIA".data l || esInfijoDe "SEXO".data l ||
  esInfijoDe "EDAD".data l

/-- Character class `[A-ZÁÉÍÓÚÜÑ\s\.]` of the inline-name pattern. -/
def claseNombre (c : Char) : Bool := esLetraEsp c || pyIsSpace c || c == '.'

/-- Greedy group `([A-ZÁÉÍÓÚÜÑ\s\.]{3,})` at a position. -/
def grupoNombreEn (r : List Char) : Option (List Char) :=
  let g := r.takeWhile claseNombre
  if 3 ≤ g.length then some g else none

/-- Backtracking over the second `\s*` of the inline-name pattern
(longest first; `b` counts the spaces still being consumed). -/
def bajaEspacios (r : List Char) : Nat → Option (List Char)
  | 0 => grupoNombreEn r
  | b + 1 => (grupoNombreEn (r.drop (b + 1))).orElse fun _ => bajaEspacios r b

/-- The part `[:\-]?\s*(...)` of the inline-name pattern at `r1`
(punctuation-present branch first, as the regex engine does). -/
def intentaNombreTras (r1 : List Char) : Option (List Char) :=
  let conPunct : Option (List Char) :=
    match r1 with
    | c :: r2 =>
      if c == ':' || c == '-'
      then bajaEspacios r2 (r2.takeWhile pyIsSpace).length
      else none
    | [] => none
  conPunct.orElse fun _ => bajaEspacios r1 (r1.takeWhile pyIsSpace).length

/-- Backtracking over the first `\s*` of the inline-name pattern. -/
def intentaDesde (r0 : List Char) : Nat → Option (List Char)
  | 0 => intentaNombreTras r0
  | a + 1 => (intentaNombreTras (r0.drop (a + 1))).orElse fun _ => intentaDesde r0 a

/-- Anchored match of `NOMBRE\s*[:\-]?\s*([A-ZÁÉÍÓÚÜÑ\s\.]{3,})`
(because `\s` belongs to the group's class, the quantifiers backtrack;
the enumeration order mirrors the regex engine's). -/
def tryNombreInline (_ : Option Char) (l : List Char) : Option (List Char) :=
  if esPrefijoDe "NOMBRE".data l then
    let r0 := l.drop 6
    intentaDesde r0 (r0.takeWhile pyIsSpace).length
  else none

/-- `re.fullmatch(r'NOMBRE', up)`. -/
def esNombreExacto (up : String) : Bool := up == "NOMBRE"

/-- `re.fullmatch(r'^NOMBRE\s*$', up)`. -/
def esNombreEtiqueta (up : String) : Bool :=
  esPrefijoDe "NOMBRE".data up.data && (up.data.drop 6).all pyIsSpace

/-- `re.fullmatch(r'\d{4}', s)`. -/
def esCuatroDigitos (l : List Char) : Bool :=
  l.length == 4 && l.all esDigito

/-- `re.match(r'^\d+[A-Z]*$', s)`: a non-empty digit run followed by
upper-case letters to the end. -/
def esDigitosLetras (l : List Char) : Bool :=
  let ds := l.takeWhile esDigito
  !ds.isEmpty && (l.drop ds.length).all esMayuscula

/-- Tail `\s*INT\.?\s*\d+` of the street-number pattern, returning the
matched extension and the remaining characters. -/
def colaIntR (r : List Char) : Option (List Char × List Char) :=
  let par := r.span pyIsSpace
  if esPrefijoDe "INT".data par.2 then
    let r2 := par.2.drop 3
    let sinPunto (pref : List Char) (rr : List Char) : Option (List Char × List Char) :=
      let par2 := rr.span pyIsSpace
      let ds := par2.2.takeWhile esDigito
      if ds.isEmpty then none
      else some (par.1 ++ pref ++ par2.1 ++ ds, par2.2.drop ds.length)
    match r2 with
    | '.' :: r3 =>
      (match sinPunto ('I' :: 'N' :: 'T' :: '.' :: []) r3 with
       | some p => some p
       | none => sinPunto ('I' :: 'N' :: 'T' :: []) r2)
    | _ => sinPunto ('I' :: 'N' :: 'T' :: []) r2
  else none

/-- Close the street-number match: optional `INT` tail (preferred), then
the trailing `\b`. -/
def finNumero (g r : List Char) : Option (List Char) :=
  let conInt : Option (List Char) :=
    match colaIntR r with
    | some (ext, r2) => if wordB r2.head? then none else some (g ++ ext)
    | none => none
  match conInt with
  | some g2 => some g2
  | none => if wordB r.head? then none else some g

/-- Anchored match of `\b(\d{1,5}[A-Z]?(?:\s*INT\.?\s*\d+)?)\b`
(street-number pattern; `\d{1,5}` greedy, `[A-Z]?` and the `INT` tail
preferred-present). -/
def tryNumero (prev : Option Char) (l : List Char) : Option (List Char) :=
  if wordB prev then none else
  let run := (l.takeWhile esDigito).length
  let intenta (d : Nat) : Option (List Char) :=
    if d = 0 then none else
    let ds := l.take d
    let r1 := l.drop d
    let conLetra : Option (List Char) :=
      match r1 with
      | k :: r2 => if esMayuscula k then finNumero (ds ++ [k]) r2 else none
      | [] => none
    match conLetra with
    | some g => some g
    | none => finNumero ds r1
  let m := min 5 run
  (intenta m).orElse fun _ => (intenta (m - 1)).orElse fun _ =>
  (intenta (m - 2)).orElse fun _ => (intenta (m - 3)).orElse fun _ =>
  intenta (m - 4)

/-! ## Static lookup tables -/

/-- `CODIGOS_ESTADO_CURP`: 2-letter birth-state codes (33 entries). -/
def CODIGOS_ESTADO_CURP : List (String × String) :=
  [("AS", "AGUASCALIENTES"), ("BC", "BAJA CALIFORNIA"), ("BS", "BAJA CALIFORNIA SUR"),
   ("CC", "CAMPECHE"), ("CL", "COAHUILA"), ("CM", "COLIMA"), ("CS", "CHIAPAS"),
   ("CH", "CHIHUAHUA"), ("DF", "CIUDAD DE MÉXICO"), ("DG", "DURANGO"),
   ("GT", "GUANAJUATO"), ("GR", "GUERRERO"), ("HG", "HIDALGO"), ("JC", "JALISCO"),
   ("MC", "MÉXICO"), ("MN", "MICHOACÁN"), ("MS", "MORELOS"), ("NT", "NAYARIT"),
   ("NL", "NUEVO LEÓN"), ("OC", "OAXACA"), ("PL", "PUEBLA"), ("QT", "QUERÉTARO"),
   ("QR", "QUINTANA ROO"), ("SP", "SAN LUIS POTOSÍ"), ("SL", "SINALOA"),
   ("SR", "SONORA"), ("TC", "TABASCO"), ("TS", "TAMAULIPAS"), ("TL", "TLAXCALA"),
   ("VZ", "VERACRUZ"), ("YN", "YUCATÁN"), ("ZS", "ZACATECAS"), ("NE", "EXTRANJERO")]

/-- `CODIGOS_ESTADO_ELECTOR`: 2-digit residence-state codes (32 entries). -/
def CODIGOS_ESTADO_ELECTOR : List (String × String) :=
  [("01", "AGUASCALIENTES"), ("02", "BAJA CALIFORNIA"), ("03", "BAJA CALIFORNIA SUR"),
   ("04", "CAMPECHE"), ("05", "COAHUILA"), ("06", "COLIMA"), ("07", "CHIAPAS"),
   ("08", "CHIHUAHUA"), ("09", "CIUDAD DE MÉXICO"), ("10", "DURANGO"),
   ("11", "GUANAJUATO"), ("12", "GUERRERO"), ("13", "HIDALGO"), ("14", "JALISCO"),
   ("15", "MÉXICO"), ("16", "MICHOACÁN"), ("17", "MORELOS"), ("18", "NAYARIT"),
   ("19", "NUEVO LEÓN"), ("20", "OAXACA"), ("21", "PUEBLA"), ("22", "QUERÉTARO"),
   ("23", "QUINTANA ROO"), ("24", "SAN LUIS POTOSÍ"), ("25", "SINALOA"),
   ("26", "SONORA"), ("27", "TABASCO"), ("28", "TAMAULIPAS"), ("29", "TLAXCALA"),
   ("30", "VERACRUZ"), ("31", "YUCATÁN"), ("32", "ZACATECAS")]

/-! ## Data model -/

/-- Result of `extraer_datos_desde_curp`. -/
structure DatosCurp where
  sexo : String
  fecha_nacimiento : String
  entidad_nacimiento : String
  estado : String
deriving DecidableEq, Repr

/-- Result of `extraer_datos_desde_clave_elector`. -/
structure DatosClave where
  estado_clave : String
  seccion_clave : String
  anio_registro_clave : String
deriving DecidableEq, Repr

/-- Result of `separar_nombre_por_curp_y_tokens`. -/
structure NombrePartes where
  apellido_paterno : String
  apellido_materno : String
  nombres : String
deriving DecidableEq, Repr

/-- The assembled record of `extraer_campos_ine_mejorado` (string fields
plus the boolean `es_ine`). -/
structure Campos where
  tipo_credencial : String
  es_ine : Bool
  nombre : String
  curp : String
  clave_elector : String
  fecha_nacimiento : String
  anio_registro : String
  seccion : String
  vigencia : String
  sexo : String
  pais : String
  calle : String
  colonia : String
  estado : String
  numero : String
  codigo_postal : String
deriving DecidableEq, Repr

/-! ## Normalisation and classification -/

/-- `normalizar_textos`: strip, collapse internal whitespace, drop empties. -/
def normalizarTextos (texts : List String) : List String :=
  texts.filterMap (fun t =>
    let t2 : List Char := collapseWS (pyStripL t.data)
    if t2.isEmpty then none else some ⟨t2⟩)

/-- The classifier's `tiene_curp` test (`"CURP" in texto` or a
boundary-delimited CURP shape).  The source computes it but never uses it
in the final classification decision. -/
def tieneCurpEnTexto (textoCompleto : List Char) : Bool :=
  esInfijoDe "CURP".data textoCompleto ||
  (searchAux tryCurpB none textoCompleto).isSome

/-- `clasificar_tipo_credencial`: decide `"C"`, `"D"` or `"GH"`. -/
def clasificarTipoCredencial (textosLimpios : List String) : String :=
  let textoCompleto : List Char :=
    pyStripL (joinSpL ((textosLimpios.filter (fun t => !(t == ""))).map
      (fun t => pyStripL (upperL t.data))))
  let esIfe :=
    esInfijoDe "INSTITUTO FEDERAL ELECTORAL".data textoCompleto ||
    esInfijoDe "REGISTRO FEDERAL DE ELECTORES".data textoCompleto ||
    buscaPalabra "IFE".data textoCompleto ||
    (esInfijoDe "FEDERAL".data textoCompleto &&
     esInfijoDe "ELECTORAL".data textoCompleto &&
     esInfijoDe "REGISTRO".data textoCompleto)
  if esIfe then "C" else
  let tieneIne :=
    (esInfijoDe "INSTITUTO".data textoCompleto &&
     esInfijoDe "ELECTORAL".data textoCompleto) &&
    (esInfijoDe "NACIONAL".data textoCompleto || buscaPalabra "INE".data textoCompleto)
  let tieneCredencialParaVotar :=
    esInfijoDe "CREDENCIAL".data textoCompleto && esInfijoDe "VOTAR".data textoCompleto
  let tieneClaveElectorFlexible :=
    (searchAux (tryClaveDe "ELECTOR".data) none textoCompleto).isSome ||
    (esInfijoDe "CLAVE".data textoCompleto && esInfijoDe "ELECTOR".data textoCompleto) ||
    (searchAux (tryClaveDe "ELEC".data) none textoCompleto).isSome
  if tieneIne && tieneCredencialParaVotar && tieneClaveElectorFlexible then "GH"
  else if tieneIne && tieneCredencialParaVotar then "D"
  else "D"

/-! ## Identifier decoders -/

/-- `extraer_datos_desde_curp`.  The `none` result models the
`ValueError` raised by `int(anio)` when characters 4-5 of a ≥16-character
input are not an integer literal; the source's inner `len(curp) >= 10` /
`>= 13` guards are subsumed by the `< 16` early return. -/
def extraerDatosDesdeCurp (anioActual : Nat) (curp : String) : Option DatosCurp :=
  let c := curp.data
  if c.length < 16 then some ⟨"", "", "", ""⟩
  else
    let sexoChar := pyUpperChar (c.getD 10 ' ')
    let sexo := if sexoChar == 'H' then "H" else if sexoChar == 'M' then "M" else "X"
    let anio := (c.drop 4).take 2
    let mes := (c.drop 6).take 2
    let dia := (c.drop 8).take 2
    match pyIntOpt anio with
    | none => none
    | some anioNum =>
      let siglo := if anioNum > ((anioActual % 100 : Nat) : Int) then "19" else "20"
      let fecha := (⟨dia⟩ : String) ++ "/" ++ (⟨mes⟩ : String) ++ "/" ++ siglo ++ (⟨anio⟩ : String)
      let codigoEstado : String := ⟨upperL ((c.drop 11).take 2)⟩
      let estado := (CODIGOS_ESTADO_CURP.lookup codigoEstado).getD ""
      some ⟨sexo, fecha, codigoEstado, estado⟩

/-- First year of the `finditer` scan with `1900 <= año <= anioActual + 1`. -/
def primerAnioValido (anioActual : Nat) : List (List Char) → String
  | [] => ""
  | y :: ys =>
    let n := natOfDigits y
    if 1900 ≤ n && n ≤ anioActual + 1 then natToStr n
    else primerAnioValido anioActual ys

/-- `extraer_datos_desde_clave_elector`.  The source's `len(clave) >= 2`
guard is subsumed by the `< 13` early return. -/
def extraerDatosDesdeClaveElector (anioActual : Nat) (clave : String) : DatosClave :=
  let c := clave.data
  if c.length < 13 then ⟨"", "", ""⟩
  else
    let codigoEstado : String := ⟨c.take 2⟩
    let estadoClave := (CODIGOS_ESTADO_ELECTOR.lookup codigoEstado).getD ""
    let seccionClave : String :=
      match searchAux (tryDigitosB 4) none c with
      | some g => ⟨g⟩
      | none => ""
    let anioRegistro := primerAnioValido anioActual (findallYearsClaveAux none c)
    ⟨estadoClave, seccionClave, anioRegistro⟩

/-! ## Name cleaning and extraction -/

/-- The invalid-word list of `limpiar_y_validar_nombre`. -/
def palabrasInvalidas : List String :=
  ["EDAD", "AÑOS", "AÑO", "EDAD:", "EDADES", "FECHA", "NACIMIENTO",
   "DOMICILIO", "CALLE", "COLONIA", "ESTADO", "MUNICIPIO", "CIUDAD",
   "CP", "C.P.", "CÓDIGO", "POSTAL", "SECCIÓN", "SECCION", "CLAVE",
   "ELECTOR", "CURP", "VIGENCIA", "VIGENTE", "INSTITUTO", "NACIONAL",
   "FEDERAL", "ELECTORAL", "CREDENCIAL", "VOTAR", "PARA", "MÉXICO",
   "REGISTRO"]

/-- `re.sub(r'[^\wÁÉÍÓÚÜÑ]', '', palabra)`: keep word characters (the
extra accented letters of the class are already word characters). -/
def soloCaracteresPalabra (l : List Char) : List Char := l.filter pyIsWordChar

/-- The per-word validation of `limpiar_y_validar_nombre`. -/
def palabraValida (palabra : String) : Bool :=
  let pl := soloCaracteresPalabra palabra.data
  !pl.isEmpty && 1 < pl.length &&
  !(palabrasInvalidas.contains (⟨pl⟩ : String)) &&
  !(!pl.isEmpty && pl.all esDigito) &&
  !(esDigitosLetras pl)

/-- `limpiar_y_validar_nombre`. -/
def limpiarYValidarNombre (nombre : String) : String :=
  if nombre == "" then "" else
  let nombreUpper := pyUpper nombre
  let palabras := pySplit nombreUpper
  let palabrasLimpias := palabras.filter palabraValida
  let nombreOriginal := pySplit nombre
  let nombreFinal := nombreOriginal.filter
    (fun w => (palabrasLimpias.map pyUpper).contains (pyUpper w))
  joinSp nombreFinal

/-- The acceptance gate shared by the name strategies:
`if len(nombre_candidato.split()) >= 2: return nombre_candidato`. -/
def aceptaNombre (nc : String) : Option String :=
  if 2 ≤ (pySplit nc).length then some nc else none

/-- The acceptance gate of the inline `NOMBRE:` strategy: ≥ 2 words, no
stop labels, no blacklist, no digits (checked on the upper-cased value). -/
def aceptaNombreInline (nc : String) : Option String :=
  let ncUp := pyUpper nc
  if 2 ≤ (pySplit nc).length && !(esEtiquetaCorte ncUp.data)
     && !(enListaNegra ncUp.data) && !(hasDigitL ncUp.data)
  then some nc else none

/-- The per-line candidate filter of the domicile-anchor window. -/
def lineaCandidata (s0 : String) : Option String :=
  let s := pyStrip s0
  let up := pyStrip (pyUpper s)
  if s == "" then none
  else if esNombreExacto up then none
  else if esEtiquetaCorte up.data then none
  else if enListaNegra up.data then none
  else if hasDigitL up.data then none
  else if (up.data.filter esLetraEsp).length < 2 then none
  else some s

/-- Strategy 0 of `extraer_nombre_mejorado`: anchor on the first line
containing `DOMICILIO`, filter the 12 preceding lines, join the last 4
candidates; accept only with ≥ 2 words. -/
def estrategiaDomicilio (tl : List String) : Option String :=
  match tl.findIdx? (fun line => contiene (pyUpper line) "DOMICILIO") with
  | none => none
  | some i =>
    let ventana := (tl.take i).drop (i - 12)
    let candidatos := ventana.filterMap lineaCandidata
    if candidatos.isEmpty then none
    else
      let nc0 := pyStrip (joinSp (candidatos.drop (candidatos.length - 4)))
      aceptaNombre (pyStrip (limpiarYValidarNombre nc0))

/-- The line collector after a bare `NOMBRE` label (GH layout): stop at a
stop-label, skip blacklisted/empty/digit/short lines. -/
def recolectaGH : List String → List String
  | [] => []
  | l :: ls =>
    let s := pyStrip l
    let sUp := pyStrip (pyUpper s)
    if esEtiquetaCorte sUp.data then []
    else if enListaNegra sUp.data then recolectaGH ls
    else if s == "" then recolectaGH ls
    else if hasDigitL sUp.data then recolectaGH ls
    else if (sUp.data.filter esLetraEsp).length < 2 then recolectaGH ls
    else s :: recolectaGH ls

/-- GH label strategy: find a line that is exactly the `NOMBRE` label,
collect up to the next 6 lines, accept the joined result with ≥ 2 words;
on failure keep scanning for further label lines. -/
def estrategiaEtiquetaGHAux (tl : List String) : Nat → List String → Option String
  | _, [] => none
  | i, line :: rest =>
    let up := pyStrip (pyUpper line)
    if esNombreEtiqueta up then
      let partes := recolectaGH ((tl.drop (i + 1)).take 6)
      match aceptaNombre (pyStrip (limpiarYValidarNombre (pyStrip (joinSp partes)))) with
      | some r => some r
      | none => estrategiaEtiquetaGHAux tl (i + 1) rest
    else estrategiaEtiquetaGHAux tl (i + 1) rest

/-- GH inline strategy: `NOMBRE: <value>` on a single line. -/
def estrategiaInlineGH : List String → Option String
  | [] => none
  | line :: rest =>
    let up := pyUpper line
    match searchAux tryNombreInline none up.data with
    | some g =>
      (match aceptaNombreInline (pyStrip (limpiarYValidarNombre (pyStrip ⟨g⟩))) with
       | some r => some r
       | none => estrategiaInlineGH rest)
    | none => estrategiaInlineGH rest

/-- General fallback strategy: the first line with ≥ 2 words, no labels,
no digits, whose cleaned form still has ≥ 2 words. -/
def estrategiaFallback : List String → Option String
  | [] => none
  | line :: rest =>
    let up := pyStrip (pyUpper line)
    if up == "" then estrategiaFallback rest
    else if (pySplit up).length < 2 then estrategiaFallback rest
    else if esEtiquetaCorte up.data then estrategiaFallback rest
    else if enListaNegra up.data then estrategiaFallback rest
    else if hasDigitL up.data then estrategiaFallback rest
    else
      match aceptaNombre (pyStrip (limpiarYValidarNombre (pyStrip line))) with
      | some r => some r
      | none => estrategiaFallback rest

/-- `extraer_nombre_mejorado`. -/
def extraerNombreMejorado (texts : List String) (tipoCredencial : String) : String :=
  let tl := normalizarTextos texts
  match estrategiaDomicilio tl with
  | some n => n
  | none =>
    let resGH : Option String :=
      if tipoCredencial == "GH" then
        match estrategiaEtiquetaGHAux tl 0 tl with
        | some n => some n
        | none => estrategiaInlineGH tl
      else none
    match resGH with
    | some n => n
    | none => (estrategiaFallback tl).getD ""

/-! ## Validity-period extraction -/

/-- `vigencia.replace('-', ' - ')`. -/
def reemplazaGuion (l : List Char) : List Char :=
  l.flatMap (fun c => if c == '-' then [' ', '-', ' '] else [c])

/-- `re.sub(r'\s+', ' ', vigencia.replace('-', ' - ').strip())`. -/
def normVig (g : List Char) : String := ⟨collapseWS (pyStripL (reemplazaGuion g))⟩

/-- Index of the first occurrence of a line (Python `list.index`). -/
def idxDe (x : String) : List String → Nat
  | [] => 0
  | y :: ys => if y == x then 0 else idxDe x ys + 1

/-- First line (of the ≤ 2 lines after the label) matching the
follow-up-years pattern. -/
def buscaVigNext : List String → Option String
  | [] => none
  | l :: ls =>
    match searchAux tryVigNext none l.data with
    | some g => some (normVig g)
    | none => buscaVigNext ls

/-- First scanning loop of `extraer_vigencia_correcta`: label-anchored
same-line / next-lines patterns, then the validated direct pattern on the
same line. -/
def vigLoop1 (tl : List String) : List String → Option String
  | [] => none
  | line :: rest =>
    let lineUpper := pyUpper line
    let r1 : Option String :=
      if contiene lineUpper "VIGENCIA" then
        match searchAux tryVigSameLine none lineUpper.data with
        | some g => some (normVig g)
        | none =>
          let idx := idxDe line tl
          buscaVigNext ((tl.drop (idx + 1)).take 2)
      else none
    match r1 with
    | some v => some v
    | none =>
      match searchAux tryVigDirect none line.data with
      | some (d1, s1, s2, d2) =>
        let g := d1 ++ s1 ++ '-' :: (s2 ++ d2)
        (match findall4 g with
         | [y1, y2] =>
           let a1 := natOfDigits y1
           let a2 := natOfDigits y2
           if 1900 ≤ a1 && a1 ≤ 2099 && 1900 ≤ a2 && a2 ≤ 2099 && a2 > a1
           then some (normVig g) else vigLoop1 tl rest
         | _ => vigLoop1 tl rest)
      | none => vigLoop1 tl rest

/-- One position `j` of the second loop's inner scan. -/
def vigLoop2Try (tl : List String) (i j : Nat) : Option String :=
  match tl.get? j with
  | none => none
  | some sig =>
    match findallYears sig.data with
    | y1 :: y2 :: _ => some ((⟨y1⟩ : String) ++ " - " ++ (⟨y2⟩ : String))
    | [y1] =>
      if j > i then
        let sig2 := (tl.get? (j + 1)).getD ""
        match (findallYearsAux none sig2.data).head? with
        | some y2 => some ((⟨y1⟩ : String) ++ " - " ++ (⟨y2⟩ : String))
        | none => none
      else none
    | [] => none

/-- Second scanning loop of `extraer_vigencia_correcta`: collect plausible
years on the label line and the next two lines. -/
def vigLoop2 (tl : List String) : Nat → List String → Option String
  | _, [] => none
  | i, line :: rest =>
    let r : Option String :=
      if contiene (pyUpper line) "VIGENCIA" then
        (vigLoop2Try tl i i).orElse fun _ =>
        (if i + 1 < tl.length then vigLoop2Try tl i (i + 1) else none).orElse fun _ =>
        (if i + 2 < tl.length then vigLoop2Try tl i (i + 2) else none)
      else none
    match r with
    | some v => some v
    | none => vigLoop2 tl (i + 1) rest

/-- `extraer_vigencia_correcta` (the credential type is passed but unused
by the source). -/
def extraerVigenciaCorrecta (texts : List String) (_tipoCredencial : String) : String :=
  let tl := normalizarTextos texts
  match vigLoop1 tl tl with
  | some v => v
  | none => (vigLoop2 tl 0 tl).getD ""

/-! ## Field pickers (`buscar_en_lista`, `buscar_seccion`) -/

/-- The regex patterns the source passes to `buscar_en_lista`. -/
inductive Patron where
  | curp
  | clave18
  | claveLoose
  | fecha
  | anioReg
  | cp5
  | sexo
  | vigLoose
deriving DecidableEq

/-- Does the pattern string contain the substring `\d{2}/\d{2}/\d{4}`
(the date-validation dispatch of `buscar_en_lista`)?  Of the patterns
passed by the source only `\b(\d{2}/\d{2}/\d{4})\b` does. -/
def marcaFecha : Patron → Bool
  | .fecha => true
  | _ => false

/-- Does the pattern string contain the substring `\d{4}\s*[-]` (the
validity-validation dispatch)?  Of the patterns passed by the source only
the loose fallback `(\d{4}\s*[-]?\s*?\d{4})` does. -/
def marcaVigencia : Patron → Bool
  | .vigLoose => true
  | _ => false

/-- `re.search(pattern, line)` returning `group(1)`. -/
def matchPatron : Patron → List Char → Option (List Char)
  | .curp, l => searchAux tryCurp none l
  | .clave18, l => searchAux tryClave18 none l
  | .claveLoose, l => searchAux tryClaveLoose none l
  | .fecha, l => searchAux tryFecha none l
  | .anioReg, l => searchAux tryAnioReg none l
  | .cp5, l => searchAux (tryDigitosB 5) none l
  | .sexo, l => searchAux trySexo none l
  | .vigLoose, l => searchAux tryVigLoose none l

/-- Date plausibility check of `buscar_en_lista`: parse `DD/MM/YYYY` with
`int`; a parse failure (the source's `except`) counts as invalid. -/
def fechaValida (anioActual : Nat) (fecha : List Char) : Bool :=
  match splitSlash fecha with
  | [d, m, a] =>
    match pyIntOpt d, pyIntOpt m, pyIntOpt a with
    | some dia, some mes, some anio =>
      1 ≤ dia && dia ≤ 31 && 1 ≤ mes && mes ≤ 12 &&
      1900 ≤ anio && anio ≤ (anioActual : Int)
    | _, _, _ => false
  | _ => false

/-- Validity plausibility check of `buscar_en_lista`: exactly two 4-digit
runs, both in `[1900, 2099]`, second strictly greater. -/
def validaVigencia (vig : List Char) : Bool :=
  match findall4 vig with
  | [y1, y2] =>
    let a1 := natOfDigits y1
    let a2 := natOfDigits y2
    1900 ≤ a1 && a1 ≤ 2099 && 1900 ≤ a2 && a2 ≤ 2099 && a2 > a1
  | _ => false

/-- `buscar_en_lista`: first match over the lines, with the special
validations for the date and loose-validity patterns. -/
def buscarEnLista (anioActual : Nat) (p : Patron) : List String → String
  | [] => ""
  | line :: rest =>
    if marcaFecha p then
      match matchPatron p line.data with
      | some f =>
        if fechaValida anioActual f then (⟨f⟩ : String)
        else buscarEnLista anioActual p rest
      | none => buscarEnLista anioActual p rest
    else if marcaVigencia p then
      match matchPatron p line.data with
      | some v =>
        if validaVigencia v then (⟨v⟩ : String)
        else buscarEnLista anioActual p rest
      | none => buscarEnLista anioActual p rest
    else
      match matchPatron p line.data with
      | some g => (⟨g⟩ : String)
      | none => buscarEnLista anioActual p rest

/-- `buscar_seccion`: the first line that is exactly 4 digits once
stripped. -/
def buscarSeccion : List String → String
  | [] => ""
  | line :: rest =>
    if esCuatroDigitos (pyStrip line).data then pyStrip line
    else buscarSeccion rest

/-! ## Field assembler -/

/-- `extraer_campos_ine_mejorado`.  Returns `none` when the CURP decoder
raises (which cannot happen for regex-extracted CURPs: their year digits
are guaranteed). -/
def extraerCamposIneMejorado (anioActual : Nat) (texts : List String) : Option Campos :=
  let tl := normalizarTextos texts
  let tipo := clasificarTipoCredencial tl
  let curpCrudo := buscarEnLista anioActual .curp tl
  let clave18 := buscarEnLista anioActual .clave18 tl
  let claveCrudo := if !(clave18 == "") then clave18
                    else buscarEnLista anioActual .claveLoose tl
  match extraerDatosDesdeCurp anioActual curpCrudo with
  | none => none
  | some datosCurp =>
    let datosClave := extraerDatosDesdeClaveElector anioActual claveCrudo
    let nombreCompleto := extraerNombreMejorado tl tipo
    let vigenciaCorrecta := extraerVigenciaCorrecta tl tipo
    let esIne := contiene (joinSp (tl.map pyUpper)) "INSTITUTO NACIONAL ELECTORAL"
    let fechaNac0 := buscarEnLista anioActual .fecha tl
    let anioReg0 := buscarEnLista anioActual .anioReg tl
    let seccion0 := buscarSeccion tl
    let sexo0 := buscarEnLista anioActual .sexo tl
    let domIdx := tl.findIdx? (fun line => contiene (pyUpper line) "DOMICILIO")
    let calle := match domIdx with
      | some i => (tl.get? (i + 1)).getD ""
      | none => ""
    let colonia := match domIdx with
      | some i => (tl.get? (i + 2)).getD ""
      | none => ""
    let estado0 := match domIdx with
      | some i => (tl.get? (i + 3)).getD ""
      | none => ""
    let numero : String := match searchAux tryNumero none calle.data with
      | some g => ⟨g⟩
      | none => ""
    let codigoPostal := buscarEnLista anioActual .cp5 [colonia, estado0]
    let sexo1 := if sexo0 == "" && !(datosCurp.sexo == "") then datosCurp.sexo else sexo0
    let fechaNac1 := if fechaNac0 == "" && !(datosCurp.fecha_nacimiento == "")
                     then datosCurp.fecha_nacimiento else fechaNac0
    let seccion1 := if seccion0 == "" && !(datosClave.seccion_clave == "")
                    then datosClave.seccion_clave else seccion0
    let anioReg1 := if anioReg0 == "" && !(datosClave.anio_registro_clave == "")
                    then datosClave.anio_registro_clave ++ " 00" else anioReg0
    let estado1 := if estado0 == "" || (pyStrip estado0).length < 5 then
                     (if !(datosCurp.estado == "") then datosCurp.estado
                      else if !(datosClave.estado_clave == "") then datosClave.estado_clave
                      else estado0)
                   else estado0
    let anioReg2 := if !(anioReg1 == "") && !(contiene anioReg1 " ")
                    then anioReg1 ++ " 00" else anioReg1
    let vigencia1 := if vigenciaCorrecta == "" then
                       (let vo := buscarEnLista anioActual .vigLoose tl
                        if !(vo == "") then vo else vigenciaCorrecta)
                     else vigenciaCorrecta
    let vigencia2 := if !(vigencia1 == "") then normVig vigencia1.data else vigencia1
    some ⟨tipo, esIne, nombreCompleto, curpCrudo, claveCrudo, fechaNac1, anioReg2,
          seccion1, vigencia2, sexo1, "Mex", calle, colonia, estado1, numero, codigoPostal⟩

/-! ## Name splitter -/

/-- `_solo_letras`: upper-case, replace every character outside
`[A-ZÁÉÍÓÚÜÑ\s]` by a space, collapse whitespace, strip. -/
def soloLetras (s : String) : String :=
  if s == "" then "" else
  let l := upperL (pyStripL s.data)
  let l2 := l.map (fun c => if esLetraEsp c || pyIsSpace c then c else ' ')
  ⟨pyStripL (collapseWS l2)⟩

/-- The connective-particle set of `_quitar_particulas`. -/
def particulas : List String :=
  ["DE", "DEL", "LA", "LAS", "LOS", "Y", "MC", "MAC", "VAN", "VON",
   "DA", "DAS", "DO", "DOS", "DI", "DU"]

/-- `_quitar_particulas`: drop empty tokens and connective particles. -/
def quitarParticulas (tokens : List String) : List String :=
  tokens.filter (fun t => !(t == "") && !(particulas.contains t))

/-- `_primera_vocal_interna`: first vowel of the word from its second
character on. -/
def primeraVocalInterna (palabra : String) : String :=
  if palabra == "" then "" else
  let p := (soloLetras palabra).data.filter (fun c => !(c == ' '))
  if p.length < 2 then "" else
  match (p.drop 1).find? esVocalCurp with
  | some v => (⟨[v]⟩ : String)
  | none => ""

/-- `_primer_nombre_para_curp`: the JOSE/MARIA rule. -/
def primerNombreParaCurp (nombresTokens : List String) : String :=
  if nombresTokens.isEmpty then "" else
  let nt := quitarParticulas (nombresTokens.map pyUpper)
  match nt with
  | [] => ""
  | [n0] => n0
  | n0 :: n1 :: _ =>
    if n0 == "JOSE" || n0 == "JOSÉ" || n0 == "MARIA" || n0 == "MARÍA" then n1 else n0

/-- Python `x[:1]`. -/
def primerCaracter (s : String) : String :=
  match s.data with
  | [] => ""
  | c :: _ => (⟨[c]⟩ : String)

/-- `_curp_prefijo_4`: derived 4-character prefix of a candidate split. -/
def curpPrefijo4 (apPat apMat nombres : String) : String :=
  let apPatTokens := quitarParticulas (pySplit (soloLetras apPat))
  let apMatTokens := quitarParticulas (pySplit (soloLetras apMat))
  let nomTokens := pySplit (soloLetras nombres)
  let apPatBase := apPatTokens.headD ""
  let apMatBase := apMatTokens.headD ""
  let primerNom := primerNombreParaCurp nomTokens
  let c1 := primerCaracter apPatBase
  let c2 := primeraVocalInterna apPatBase
  let c3 := primerCaracter apMatBase
  let c4 := primerCaracter primerNom
  pyUpper (c1 ++ c2 ++ c3 ++ c4)

/-- Character-position match count (`zip` truncates to the shorter). -/
def cuentaCoincidencias : List Char → List Char → Int
  | a :: as, b :: bs => (if a == b then 1 else 0) + cuentaCoincidencias as bs
  | _, _ => 0

/-- Score and parts of one `(i, j)` candidate split. -/
def puntuaSplit (tokens : List String) (objetivo : String) (i j : Nat) :
    Int × String × String × String :=
  let apPat := joinSp (tokens.take i)
  let apMat := joinSp ((tokens.drop i).take j)
  let noms := joinSp (tokens.drop (i + j))
  let pref := curpPrefijo4 apPat apMat noms
  let score0 : Int := cuentaCoincidencias pref.data objetivo.data
  let score1 := if pref == objetivo then score0 + 10 else score0
  let score2 := if (pySplit noms).length = 0 then score1 - 5 else score1
  (score2, apPat, apMat, noms)

/-- Candidate `(i, j)` splits in the source's scan order
(`i` ascending then `j` ascending, `i + j < n`). -/
def candidatosSplit (n : Nat) : List (Nat × Nat) :=
  (List.range' 1 (min 3 (n - 1))).flatMap (fun i =>
    (List.range' 1 (min 3 (n - i))).filterMap (fun j =>
      if i + j ≥ n then none else some (i, j)))

/-- `separar_nombre_por_curp_y_tokens`. -/
def separarNombrePorCurpYTokens (nombre curp : String) : NombrePartes :=
  let nombreL := soloLetras nombre
  let curpC := pyStrip (pyUpper curp)
  let tokens := (pySplit nombreL).filter (fun t => !(t == ""))
  if tokens.length < 3 then
    match tokens with
    | [t0, t1] => ⟨t0, "", t1⟩
    | [t0] => ⟨"", "", t0⟩
    | _ => ⟨"", "", ""⟩
  else if curpC.length < 4 then
    ⟨tokens.headD "", (tokens.drop 1).headD "", joinSp (tokens.drop 2)⟩
  else
    let objetivo : String := ⟨curpC.data.take 4⟩
    let resultados := (candidatosSplit tokens.length).map
      (fun p => puntuaSplit tokens objetivo p.1 p.2)
    let best := resultados.foldl (fun acc cand =>
      match acc with
      | none => some cand
      | some b => if cand.1 > b.1 then some cand else some b)
      (none : Option (Int × String × String × String))
    match best with
    | some (_, apPat, apMat, noms) => ⟨apPat, apMat, noms⟩
    | none => ⟨tokens.headD "", (tokens.drop 1).headD "", joinSp (tokens.drop 2)⟩

/-! ## Definitions used by the verification statements -/

/-- The 14 OCR lines of the spec's round-trip scenario. -/
def escenario : List String :=
  ["INSTITUTO NACIONAL ELECTORAL", "CREDENCIAL PARA VOTAR", "CLAVE DE ELECTOR",
   "NOMBRE", "CASTILLO OLIVERA", "RICARDO ORLANDO", "DOMICILIO",
   "C LOS MOLINOS 174", "FRACC LA HERRADURA III 77050", "OTHON P. BLANCO, Q. ROO.",
   "CAOR930531HQRSLC0", "CSOLRC93053123H800", "VIGENCIA", "2021 - 2031"]

/-- Output shape `\d{4} - \d{4}`: four digits, space, hyphen, space, four
digits. -/
def formatoVigencia (s : String) : Bool :=
  match s.data with
  | [a, b, c, d, sp, hy, sp2, e, f, g, h] =>
    esDigito a && esDigito b && esDigito c && esDigito d &&
    sp == ' ' && hy == '-' && sp2 == ' ' &&
    esDigito e && esDigito f && esDigito g && esDigito h
  | _ => false

/-- Some run of 4 consecutive digit characters occurs in the list
(with no condition on the surrounding characters). -/
def tieneCuatroDigitosSeguidos : List Char → Bool
  | a :: b :: c :: d :: rest =>
    (esDigito a && esDigito b && esDigito c && esDigito d) ||
    tieneCuatroDigitosSeguidos (b :: c :: d :: rest)
  | _ => false

/-- A standalone 4-digit run at position `i`: four digit characters
delimited on both sides by the string ends or by non-word characters
(what the word boundaries of `\b(\d{4})\b` require). -/
abbrev EsRunAislado (l : List Char) (i : Nat) : Prop :=
  i + 4 ≤ l.length ∧
  (∀ k, k < 4 → esDigito (l.getD (i + k) ' ') = true) ∧
  (i = 0 ∨ pyIsWordChar (l.getD (i - 1) ' ') = false) ∧
  (i + 4 = l.length ∨ pyIsWordChar (l.getD (i + 4) ' ') = false)

/-- The character preceding position `k` of `l` during a `searchAux` scan
that started with previous character `prev`. -/
def prevAt (prev : Option Char) (l : List Char) : Nat → Option Char
  | 0 => prev
  | k + 1 => l.get? k

/-! ## Helper lemmas: character classes -/

set_option maxRecDepth 100000
set_option maxHeartbeats 1000000

theorem esDigito_elim {c : Char} (h : esDigito c = true) :
    c = '0' ∨ c = '1' ∨ c = '2' ∨ c = '3' ∨ c = '4' ∨
    c = '5' ∨ c = '6' ∨ c = '7' ∨ c = '8' ∨ c = '9' := by
  simpa [esDigito, or_assoc] using h

theorem esDigito_no_espacio {c : Char} (h : esDigito c = true) : pyIsSpace c = false := by
  rcases esDigito_elim h with rfl|rfl|rfl|rfl|rfl|rfl|rfl|rfl|rfl|rfl <;> decide

theorem esDigito_upper {c : Char} (h : esDigito c = true) : pyUpperChar c = c := by
  rcases esDigito_elim h with rfl|rfl|rfl|rfl|rfl|rfl|rfl|rfl|rfl|rfl <;> decide

theorem esDigito_no_guion {c : Char} (h : esDigito c = true) : (c == '-') = false := by
  rcases esDigito_elim h with rfl|rfl|rfl|rfl|rfl|rfl|rfl|rfl|rfl|rfl <;> decide

theorem esDigito_no_signo {c : Char} (h : esDigito c = true) :
    c ≠ '+' ∧ c ≠ '-' := by
  rcases esDigito_elim h with rfl|rfl|rfl|rfl|rfl|rfl|rfl|rfl|rfl|rfl <;> decide

theorem espacio_elim {c : Char} (h : pyIsSpace c = true) :
    c = ' ' ∨ c = '\t' ∨ c = '\n' ∨ c = '\r' ∨ c = Char.ofNat 11 ∨ c = Char.ofNat 12 := by
  simpa [pyIsSpace, or_assoc] using h

theorem espacio_no_guion {c : Char} (h : pyIsSpace c = true) : (c == '-') = false := by
  rcases espacio_elim h with rfl|rfl|rfl|rfl|rfl|rfl <;> decide

theorem espacio_no_digito {c : Char} (h : pyIsSpace c = true) : esDigito c = false := by
  rcases espacio_elim h with rfl|rfl|rfl|rfl|rfl|rfl <;> decide

/-! ## Helper lemmas: strip, upper, split, join memberships -/

theorem mem_dropWhile_of {p : Char → Bool} {c : Char} :
    ∀ {l : List Char}, c ∈ l → p c = false → c ∈ l.dropWhile p := by
  intro l
  induction l with
  | nil => intro h _; exact absurd h (List.not_mem_nil c)
  | cons x xs ih =>
    intro h hp
    by_cases hx : p x
    · rw [List.dropWhile_cons_of_pos hx]
      rcases List.mem_cons.mp h with rfl | hmem
      · rw [hx] at hp; cases hp
      · exact ih hmem hp
    · rwa [List.dropWhile_cons_of_neg hx]

theorem mem_pyStripL {c : Char} {l : List Char} (h : c ∈ pyStripL l) : c ∈ l := by
  unfold pyStripL at h
  rw [List.mem_reverse] at h
  have h2 := (List.dropWhile_sublist _).subset h
  rw [List.mem_reverse] at h2
  exact (List.dropWhile_sublist _).subset h2

theorem mem_pyStripL_of {c : Char} {l : List Char}
    (hc : c ∈ l) (hs : pyIsSpace c = false) : c ∈ pyStripL l := by
  unfold pyStripL
  rw [List.mem_reverse]
  exact mem_dropWhile_of (by rw [List.mem_reverse]; exact mem_dropWhile_of hc hs) hs

theorem mem_upperL {c : Char} {l : List Char} (hc : c ∈ l) :
    pyUpperChar c ∈ upperL l := List.mem_map_of_mem pyUpperChar hc

theorem mem_splitWSAux {c : Char} :
    ∀ {l acc : List Char} {t : List Char},
      t ∈ splitWSAux acc l → c ∈ t → c ∈ acc ∨ c ∈ l := by
  intro l
  induction l with
  | nil =>
    intro acc t ht hc
    unfold splitWSAux at ht
    by_cases ha : acc.isEmpty
    · simp [ha] at ht
    · simp [ha] at ht
      subst ht
      exact Or.inl (List.mem_reverse.mp hc)
  | cons x xs ih =>
    intro acc t ht hc
    unfold splitWSAux at ht
    by_cases hx : pyIsSpace x
    · by_cases ha : acc.isEmpty
      · simp [hx, ha] at ht
        rcases ih ht hc with h | h
        · simp at h
        · exact Or.inr (List.mem_cons_of_mem x h)
      · simp [hx, ha] at ht
        rcases ht with rfl | ht
        · exact Or.inl (List.mem_reverse.mp hc)
        · rcases ih ht hc with h | h
          · simp at h
          · exact Or.inr (List.mem_cons_of_mem x h)
    · simp [hx] at ht
      rcases ih ht hc with h | h
      · rcases List.mem_cons.mp h with rfl | h
        · exact Or.inr (List.mem_cons_self _ _)
        · exact Or.inl h
      · exact Or.inr (List.mem_cons_of_mem x h)

theorem mem_splitWSL {c : Char} {l : List Char} {t : List Char}
    (ht : t ∈ splitWSL l) (hc : c ∈ t) : c ∈ l := by
  rcases mem_splitWSAux ht hc with h | h
  · simp at h
  · exact h

theorem mem_joinSpL {c : Char} :
    ∀ {ts : List (List Char)}, c ∈ joinSpL ts → c = ' ' ∨ ∃ t ∈ ts, c ∈ t := by
  intro ts
  induction ts with
  | nil => intro h; simp [joinSpL] at h
  | cons t rest ih =>
    intro h
    cases rest with
    | nil =>
      simp only [joinSpL] at h
      exact Or.inr ⟨t, List.mem_cons_self _ _, h⟩
    | cons u us =>
      simp only [joinSpL, List.mem_append, List.mem_cons] at h
      rcases h with h | h | h
      · exact Or.inr ⟨t, List.mem_cons_self _ _, h⟩
      · exact Or.inl h
      · rcases ih h with h2 | ⟨w, hw, hcw⟩
        · exact Or.inl h2
        · exact Or.inr ⟨w, List.mem_cons_of_mem _ hw, hcw⟩

/-! ## Helper lemmas: generic search scan -/

theorem searchAux_sound {α : Type} {P : α → Prop}
    {f : Option Char → List Char → Option α}
    (hf : ∀ prev l r, f prev l = some r → P r) :
    ∀ (prev : Option Char) (l : List Char) (r : α),
      searchAux f prev l = some r → P r := by
  intro prev l
  induction l generalizing prev with
  | nil =>
    intro r h
    exact hf _ _ _ (by simpa [searchAux] using h)
  | cons c cs ih =>
    intro r h
    unfold searchAux at h
    cases hfc : f prev (c :: cs) with
    | some r2 =>
      rw [hfc] at h
      simp only [Option.some.injEq] at h
      subst h
      exact hf _ _ _ hfc
    | none =>
      rw [hfc] at h
      exact ih _ _ h

theorem prevAt_cons (prev : Option Char) (c : Char) (cs : List Char) (k : Nat) :
    prevAt prev (c :: cs) (k + 1) = prevAt (some c) cs k := by
  cases k <;> rfl

theorem searchAux_isSome {α : Type} (f : Option Char → List Char → Option α) :
    ∀ (l : List Char) (prev : Option Char) (k : Nat), k ≤ l.length →
      (f (prevAt prev l k) (l.drop k)).isSome = true →
      (searchAux f prev l).isSome = true := by
  intro l
  induction l with
  | nil =>
    intro prev k hk h
    have hk0 : k = 0 := Nat.le_zero.mp hk
    subst hk0
    simpa [searchAux, prevAt] using h
  | cons c cs ih =>
    intro prev k hk h
    cases k with
    | zero =>
      unfold searchAux
      cases hfc : f prev (c :: cs) with
      | some r => simp
      | none =>
        rw [prevAt, List.drop_zero, hfc] at h
        simp at h
    | succ k =>
      unfold searchAux
      cases hfc : f prev (c :: cs) with
      | some r => simp
      | none =>
        simp only []
        refine ih (some c) k (Nat.le_of_succ_le_succ hk) ?_
        rw [← prevAt_cons prev c cs k]
        exact h

/-! ## Helper lemmas: absence of digits through the cleaning pipeline -/

theorem noDigit_of_strip_upper {l : List Char}
    (h : hasDigitL (pyStripL (upperL l)) = false) : hasDigitL l = false := by
  unfold hasDigitL at h ⊢
  rw [List.any_eq_false] at h ⊢
  intro c hc hdig
  have hup : c ∈ upperL l := by
    have := mem_upperL (l := l) hc
    rwa [esDigito_upper hdig] at this
  exact h c (mem_pyStripL_of hup (esDigito_no_espacio hdig)) hdig

theorem noDigit_of_upper {l : List Char}
    (h : hasDigitL (upperL l) = false) : hasDigitL l = false := by
  unfold hasDigitL at h ⊢
  rw [List.any_eq_false] at h ⊢
  intro c hc hdig
  have hup : c ∈ upperL l := by
    have := mem_upperL (l := l) hc
    rwa [esDigito_upper hdig] at this
  exact h c hup hdig

theorem noDigit_pyStripL {l : List Char} (h : hasDigitL l = false) :
    hasDigitL (pyStripL l) = false := by
  unfold hasDigitL at h ⊢
  rw [List.any_eq_false] at h ⊢
  intro c hc hdig
  exact h c (mem_pyStripL hc) hdig

theorem noDigit_joinSp {ts : List String} (h : ∀ t ∈ ts, hasDigitL t.data = false) :
    hasDigitL (joinSp ts).data = false := by
  unfold hasDigitL at *
  rw [List.any_eq_false]
  intro c hc hdig
  rcases mem_joinSpL (by simpa [joinSp] using hc) with rfl | ⟨t, ht, hct⟩
  · exact absurd hdig (by decide)
  · rw [List.mem_map] at ht
    obtain ⟨w, hw, rfl⟩ := ht
    have := h w hw
    rw [List.any_eq_false] at this
    exact this c hct hdig

theorem mem_limpiar {c : Char} {s : String}
    (h : c ∈ (limpiarYValidarNombre s).data) : c = ' ' ∨ c ∈ s.data := by
  simp only [limpiarYValidarNombre] at h
  split at h
  · simp at h
  · rcases mem_joinSpL (by simpa [joinSp] using h) with h1 | ⟨t, ht, hct⟩
    · exact Or.inl h1
    · rw [List.mem_map] at ht
      obtain ⟨w, hw, rfl⟩ := ht
      have hw2 : w ∈ pySplit s := (List.mem_filter.mp hw).1
      rw [pySplit, List.mem_map] at hw2
      obtain ⟨w2, hw2m, rfl⟩ := hw2
      exact Or.inr (mem_splitWSL hw2m hct)

theorem noDigit_limpiar {s : String} (h : hasDigitL s.data = false) :
    hasDigitL (limpiarYValidarNombre s).data = false := by
  unfold hasDigitL at h ⊢
  rw [List.any_eq_false] at h ⊢
  intro c hc hdig
  rcases mem_limpiar hc with rfl | hmem
  · exact absurd hdig (by decide)
  · exact h c hmem hdig

/-! ## Helper lemmas: slicing and integer parsing -/

theorem drop_take_two {l : List Char} {i : Nat} (h : i + 2 ≤ l.length) :
    (l.drop i).take 2 = [l.getD i ' ', l.getD (i + 1) ' '] := by
  have h1 : i < l.length := by omega
  have h2 : i + 1 < l.length := by omega
  have e1 : l.drop i = l[i] :: l.drop (i + 1) := List.drop_eq_getElem_cons h1
  have e2 : l.drop (i + 1) = l[i + 1] :: l.drop (i + 2) := List.drop_eq_getElem_cons h2
  have g1 : l.getD i ' ' = l[i] := List.getD_eq_getElem l ' ' h1
  have g2 : l.getD (i + 1) ' ' = l[i + 1] := List.getD_eq_getElem l ' ' h2
  rw [e1, e2, g1, g2]
  rfl

theorem pyStripL_of_all {l : List Char} (h : ∀ c ∈ l, pyIsSpace c = false) :
    pyStripL l = l := by
  unfold pyStripL
  have h1 : l.dropWhile pyIsSpace = l := by
    cases l with
    | nil => rfl
    | cons c cs =>
      exact List.dropWhile_cons_of_neg (by simp [h c (List.mem_cons_self c cs)])
  rw [h1]
  have h2 : l.reverse.dropWhile pyIsSpace = l.reverse := by
    cases hr : l.reverse with
    | nil => rfl
    | cons c cs =>
      refine List.dropWhile_cons_of_neg ?_
      have hcmem : c ∈ l := by
        rw [← List.mem_reverse, hr]
        exact List.mem_cons_self c cs
      simp [h c hcmem]
  rw [h2, List.reverse_reverse]

theorem pyIntOpt_digits {l : List Char} (hne : l ≠ []) (hall : l.all esDigito = true) :
    pyIntOpt l = some ((natOfDigits l : Int)) := by
  have hmem := List.all_eq_true.mp hall
  have hnos : ∀ c ∈ l, pyIsSpace c = false := fun c hc => esDigito_no_espacio (hmem c hc)
  unfold pyIntOpt
  rw [pyStripL_of_all hnos]
  cases l with
  | nil => cases hne rfl
  | cons c cs =>
    obtain ⟨h1, h2⟩ := esDigito_no_signo (hmem c (List.mem_cons_self _ _))
    split
    · next ds heq =>
      injection heq with hc _
      exact absurd hc h1
    · next ds heq =>
      injection heq with hc _
      exact absurd hc h2
    · rw [if_pos ⟨List.cons_ne_nil c cs, hall⟩]

/-! ## C1: the round-trip scenario -/

/-- C1: on the spec's 14 OCR scenario lines, the Layout Classifier
returns the extended layout `"GH"`, the Name Extractor returns
`"CASTILLO OLIVERA RICARDO ORLANDO"`, the personal-ID decoder yields sex
`"H"`, birth date `"31/05/1993"` and birth-state `"QUINTANA ROO"`, the
Validity-Period Extractor returns `"2021 - 2031"`, the postal-code
extraction of the assembled record yields `"77050"`, and the Name
Splitter on the full name and the personal-ID code returns
`CASTILLO / OLIVERA / RICARDO ORLANDO`.  The current-year parameter is
frozen at 2026 (last two digits 26 < 93, so `93` maps to `1993`). -/
theorem claim_C1 :
    clasificarTipoCredencial (normalizarTextos escenario) = "GH" ∧
    extraerNombreMejorado (normalizarTextos escenario) "GH" =
      "CASTILLO OLIVERA RICARDO ORLANDO" ∧
    extraerDatosDesdeCurp 2026 "CAOR930531HQRSLC0" =
      some ⟨"H", "31/05/1993", "QR", "QUINTANA ROO"⟩ ∧
    extraerVigenciaCorrecta (normalizarTextos escenario) "GH" = "2021 - 2031" ∧
    (extraerCamposIneMejorado 2026 escenario).map Campos.codigo_postal = some "77050" ∧
    separarNombrePorCurpYTokens "CASTILLO OLIVERA RICARDO ORLANDO" "CAOR930531HQRSLC0" =
      ⟨"CASTILLO", "OLIVERA", "RICARDO ORLANDO"⟩ :=
  ⟨by decide, by decide, by decide, by decide, by decide, by decide⟩

/-! ## C3: totality of the personal-ID decoder -/

/-- C3 counterexample: a 16-character input whose year characters
(offsets 4-5) are letters makes `int(anio)` raise a `ValueError`
(modelled as `none`), so the decoder is not total on every input string
as the claim states. -/
theorem claim_C3_counterexample :
    ("AAAAXXAAAAHQRAAA" : String).length = 16 ∧
    extraerDatosDesdeCurp 2026 "AAAAXXAAAAHQRAAA" = none := by
  constructor
  · decide
  · decide

/-- C3 amended: the personal-ID decoder returns the all-empty four-field
map, without raising, for every input shorter than 16 characters; and it
returns a four-field map (never raises) for every input of length ≥ 16
whose characters at offsets 4 and 5 are decimal digits.  (For a ≥16-char
input whose offsets 4-5 do not form an integer literal, the `int`
conversion raises — the counterexample.) -/
theorem claim_C3_amended (anioActual : Nat) (curp : String) :
    (curp.length < 16 → extraerDatosDesdeCurp anioActual curp = some ⟨"", "", "", ""⟩) ∧
    (16 ≤ curp.length → esDigito (curp.data.getD 4 ' ') = true →
      esDigito (curp.data.getD 5 ' ') = true →
      (extraerDatosDesdeCurp anioActual curp).isSome = true) := by
  have hlen : curp.length = curp.data.length := rfl
  constructor
  · intro h
    unfold extraerDatosDesdeCurp
    rw [if_pos (by omega)]
  · intro h16 hd4 hd5
    have htake : (curp.data.drop 4).take 2 = [curp.data.getD 4 ' ', curp.data.getD 5 ' '] :=
      drop_take_two (by omega)
    have hint : pyIntOpt ((curp.data.drop 4).take 2) =
        some ((natOfDigits [curp.data.getD 4 ' ', curp.data.getD 5 ' '] : Int)) := by
      rw [htake]
      exact pyIntOpt_digits (by simp)
        (by simp only [List.all_cons, List.all_nil, hd4, hd5, Bool.and_true, Bool.true_and])
    simp only [extraerDatosDesdeCurp, if_neg (show ¬ (curp.data.length < 16) by omega), hint]
    rfl

/-- C3 amended witness: concrete instances of both parts. -/
theorem claim_C3_amended_witness :
    extraerDatosDesdeCurp 2026 "ABC" = some ⟨"", "", "", ""⟩ ∧
    (extraerDatosDesdeCurp 2026 "CAOR930531HQRSLC0").isSome = true :=
  ⟨(claim_C3_amended 2026 "ABC").1 (by decide),
   (claim_C3_amended 2026 "CAOR930531HQRSLC0").2 (by decide) (by decide) (by decide)⟩

/-! ## C4: the registration-code decoder's residence state -/

/-- C4: for every 13-19 character registration code, the decoded
residence state is exactly the 32-entry table's entry for the first two
characters, and the empty string when that prefix is not a key; the
decoder is a total function (never throws). -/
theorem claim_C4 (anioActual : Nat) (clave : String)
    (h13 : 13 ≤ clave.length) (h19 : clave.length ≤ 19) :
    (∀ v, CODIGOS_ESTADO_ELECTOR.lookup (⟨clave.data.take 2⟩ : String) = some v →
        (extraerDatosDesdeClaveElector anioActual clave).estado_clave = v) ∧
    (CODIGOS_ESTADO_ELECTOR.lookup (⟨clave.data.take 2⟩ : String) = none →
        (extraerDatosDesdeClaveElector anioActual clave).estado_clave = "") ∧
    CODIGOS_ESTADO_ELECTOR.length = 32 := by
  have hlen : clave.length = clave.data.length := rfl
  refine ⟨?_, ?_, by decide⟩
  · intro v hv
    simp only [extraerDatosDesdeClaveElector, if_neg (show ¬ (clave.data.length < 13) by omega),
      hv, Option.getD_some]
  · intro hv
    simp only [extraerDatosDesdeClaveElector, if_neg (show ¬ (clave.data.length < 13) by omega),
      hv, Option.getD_none]

/-- C4 witness: a known prefix maps to its table entry; an unknown prefix
maps to the empty string. -/
theorem claim_C4_witness :
    (extraerDatosDesdeClaveElector 2026 "23ABCDEFGHIJK").estado_clave = "QUINTANA ROO" ∧
    (extraerDatosDesdeClaveElector 2026 "XXABCDEFGHIJK").estado_clave = "" :=
  ⟨(claim_C4 2026 "23ABCDEFGHIJK" (by decide) (by decide)).1 "QUINTANA ROO" (by decide),
   (claim_C4 2026 "XXABCDEFGHIJK" (by decide) (by decide)).2.1 (by decide)⟩

/-! ## C8: the Name Splitter's degraded fixed rules -/

/-- C8: with exactly 2 cleaned tokens the splitter returns
`(token0, "", token1)`; with exactly 1 token `("", "", token)`; and with
≥ 3 tokens but a personal-ID code that is absent or under 4 characters
after upper-casing and stripping, the fixed split
`(token0, token1, rest joined)` — no combinatorial search. -/
theorem claim_C8 (nombre curp : String) :
    (∀ t0 t1, (pySplit (soloLetras nombre)).filter (fun t => !(t == "")) = [t0, t1] →
        separarNombrePorCurpYTokens nombre curp = ⟨t0, "", t1⟩) ∧
    (∀ t0, (pySplit (soloLetras nombre)).filter (fun t => !(t == "")) = [t0] →
        separarNombrePorCurpYTokens nombre curp = ⟨"", "", t0⟩) ∧
    (∀ t0 t1 t2 resto,
        (pySplit (soloLetras nombre)).filter (fun t => !(t == "")) = t0 :: t1 :: t2 :: resto →
        (pyStrip (pyUpper curp)).length < 4 →
        separarNombrePorCurpYTokens nombre curp = ⟨t0, t1, joinSp (t2 :: resto)⟩) := by
  refine ⟨?_, ?_, ?_⟩
  · intro t0 t1 h
    simp only [separarNombrePorCurpYTokens, h]
    rfl
  · intro t0 h
    simp only [separarNombrePorCurpYTokens, h]
    rfl
  · intro t0 t1 t2 resto h hc
    simp only [separarNombrePorCurpYTokens, h]
    rw [if_neg (by simp), if_pos hc]
    rfl

/-- C8 witness: concrete instances of the three degraded rules. -/
theorem claim_C8_witness :
    separarNombrePorCurpYTokens "PEREZ JUAN" "" = ⟨"PEREZ", "", "JUAN"⟩ ∧
    separarNombrePorCurpYTokens "JUAN" "" = ⟨"", "", "JUAN"⟩ ∧
    separarNombrePorCurpYTokens "GOMEZ DIAZ LUIS RAUL" "AB" = ⟨"GOMEZ", "DIAZ", joinSp ["LUIS", "RAUL"]⟩ :=
  ⟨(claim_C8 "PEREZ JUAN" "").1 "PEREZ" "JUAN" (by decide),
   (claim_C8 "JUAN" "").2.1 "JUAN" (by decide),
   (claim_C8 "GOMEZ DIAZ LUIS RAUL" "AB").2.2 "GOMEZ" "DIAZ" "LUIS" ["RAUL"] (by decide) (by decide)⟩

/-! ## C9: particle handling in the derived CURP prefix -/

/-- C9: when the paternal surname's first cleaned token is a connective
particle, the first character of the derived 4-character prefix comes
from the first non-particle token (the head of the particle-filtered
token list), not from the surname's literal first token — which the
particle filter removed only for the prefix computation. -/
theorem claim_C9 (apPat apMat nombres : String) (p q : String)
    (resto resto2 : List String) (c : Char) (cs : List Char)
    (h1 : pySplit (soloLetras apPat) = p :: resto)
    (h2 : particulas.contains p = true)
    (h3 : quitarParticulas (p :: resto) = q :: resto2)
    (h4 : q.data = c :: cs) :
    (curpPrefijo4 apPat apMat nombres).data.head? = some (pyUpperChar c) ∧ q ≠ p := by
  constructor
  · simp only [curpPrefijo4, h1, h3, List.headD_cons, primerCaracter, h4]
    simp [pyUpper, upperL, String.data_append]
  · have hqmem : q ∈ quitarParticulas (p :: resto) := by
      rw [h3]; exact List.mem_cons_self _ _
    have hq : particulas.contains q = false := by
      unfold quitarParticulas at hqmem
      have := (List.mem_filter.mp hqmem).2
      simp only [Bool.and_eq_true, Bool.not_eq_true'] at this
      exact this.2
    intro he
    rw [he, h2] at hq
    cases hq

/-- C9 witness: for `DE CRUZ` the prefix's first character is the `C` of
`CRUZ`, not the `D` of the particle `DE`. -/
theorem claim_C9_witness :
    (curpPrefijo4 "DE CRUZ" "LOPEZ" "JUAN").data.head? = some (pyUpperChar 'C') ∧
    ("CRUZ" : String) ≠ "DE" :=
  claim_C9 "DE CRUZ" "LOPEZ" "JUAN" "DE" "CRUZ" ["CRUZ"] [] 'C' ['R', 'U', 'Z']
    (by decide) (by decide) (by decide) (by decide)

/-! ## C6: the registration-section picker and word boundaries -/

theorem takeExact_zero {p : Char → Bool} (l : List Char) :
    takeExact p 0 l = some ([], l) := rfl

theorem takeExact_cons_pos {p : Char → Bool} {c : Char} (h : p c = true)
    (n : Nat) (l : List Char) :
    takeExact p (n + 1) (c :: l) =
      (takeExact p n l).map (fun r => (c :: r.1, r.2)) := by
  show (if p c = true then (takeExact p n l).map (fun r => (c :: r.1, r.2)) else none) = _
  rw [if_pos h]

theorem takeExact_spec {p : Char → Bool} :
    ∀ {n : Nat} {l t r : List Char}, takeExact p n l = some (t, r) →
      t.length = n ∧ t.all p = true ∧ l = t ++ r := by
  intro n
  induction n with
  | zero =>
    intro l t r h
    unfold takeExact at h
    cases h
    exact ⟨rfl, rfl, rfl⟩
  | succ n ih =>
    intro l t r h
    cases l with
    | nil => cases h
    | cons c cs =>
      by_cases hpc : p c = true
      · rw [takeExact_cons_pos hpc] at h
        cases htk : takeExact p n cs with
        | none => rw [htk] at h; cases h
        | some pr =>
          obtain ⟨t2, r2⟩ := pr
          rw [htk] at h
          simp only [Option.map_some', Option.some.injEq, Prod.mk.injEq] at h
          obtain ⟨ht, hr⟩ := h
          subst ht
          subst hr
          obtain ⟨h1, h2, h3⟩ := ih htk
          exact ⟨by simp [h1], by simp [hpc, h2], by simp [h3]⟩
      · unfold takeExact at h
        rw [if_neg hpc] at h
        cases h

theorem tryDigitosB_eq (n : Nat) (prev : Option Char) (l : List Char) :
    tryDigitosB n prev l =
      if wordB prev = true then none
      else match takeExact esDigito n l with
           | some (ds, r) => if wordB r.head? = true then none else some ds
           | none => none := rfl

theorem tryDigitosB_sound {n : Nat} {prev : Option Char} {l g : List Char}
    (hr : tryDigitosB n prev l = some g) : g.length = n := by
  cases htk : takeExact esDigito n l with
  | none =>
    have hnone : tryDigitosB n prev l = none := by
      rw [tryDigitosB_eq, htk]
      by_cases hw : wordB prev = true
      · rw [if_pos hw]
      · rw [if_neg hw]
    rw [hnone] at hr
    cases hr
  | some pr =>
    obtain ⟨t, rest2⟩ := pr
    by_cases hw : wordB prev = true
    · have hnone : tryDigitosB n prev l = none := by
        rw [tryDigitosB_eq, if_pos hw]
      rw [hnone] at hr
      cases hr
    · by_cases hw2 : wordB rest2.head? = true
      · have hnone : tryDigitosB n prev l = none := by
          rw [tryDigitosB_eq, if_neg hw, htk]
          show (if wordB rest2.head? = true then none else some t) = none
          rw [if_pos hw2]
        rw [hnone] at hr
        cases hr
      · have hsome : tryDigitosB n prev l = some t := by
          rw [tryDigitosB_eq, if_neg hw, htk]
          show (if wordB rest2.head? = true then none else some t) = some t
          rw [if_neg hw2]
        rw [hsome] at hr
        cases hr
        exact (takeExact_spec htk).1

theorem tryDigitosB4_at {l : List Char} {i : Nat} (h : EsRunAislado l i) :
    (tryDigitosB 4 (prevAt none l i) (l.drop i)).isSome = true := by
  obtain ⟨hlen, hdig, hprev, hnext⟩ := h
  have h0 : i < l.length := by omega
  have h1 : i + 1 < l.length := by omega
  have h2 : i + 2 < l.length := by omega
  have h3 : i + 3 < l.length := by omega
  have e0 : l.drop i = l[i] :: l.drop (i + 1) := List.drop_eq_getElem_cons h0
  have e1 : l.drop (i + 1) = l[i + 1] :: l.drop (i + 2) := List.drop_eq_getElem_cons h1
  have e2 : l.drop (i + 2) = l[i + 2] :: l.drop (i + 3) := List.drop_eq_getElem_cons h2
  have e3 : l.drop (i + 3) = l[i + 3] :: l.drop (i + 4) := List.drop_eq_getElem_cons h3
  have hd0 : esDigito l[i] = true := by
    have hk := hdig 0 (by omega)
    rw [Nat.add_zero, List.getD_eq_getElem l ' ' h0] at hk
    exact hk
  have hd1 : esDigito l[i + 1] = true := by
    have hk := hdig 1 (by omega)
    rw [List.getD_eq_getElem l ' ' h1] at hk
    exact hk
  have hd2 : esDigito l[i + 2] = true := by
    have hk := hdig 2 (by omega)
    rw [List.getD_eq_getElem l ' ' h2] at hk
    exact hk
  have hd3 : esDigito l[i + 3] = true := by
    have hk := hdig 3 (by omega)
    rw [List.getD_eq_getElem l ' ' h3] at hk
    exact hk
  have hprev2 : wordB (prevAt none l i) = false := by
    cases i with
    | zero => rfl
    | succ j =>
      have hj : j < l.length := by omega
      rcases hprev with hz | hw
      · exact absurd hz (Nat.succ_ne_zero j)
      · show wordB (l.get? j) = false
        rw [List.get?_eq_getElem?, List.getElem?_eq_getElem hj]
        have : l.getD (j + 1 - 1) ' ' = l[j] := by
          rw [Nat.add_sub_cancel, List.getD_eq_getElem l ' ' hj]
        rw [this] at hw
        exact hw
  have hnext2 : wordB (l.drop (i + 4)).head? = false := by
    rw [List.head?_drop]
    by_cases hc : i + 4 < l.length
    · rw [List.getElem?_eq_getElem hc]
      show pyIsWordChar l[i + 4] = false
      rcases hnext with hz | hw
      · omega
      · rw [List.getD_eq_getElem l ' ' hc] at hw
        exact hw
    · rw [List.getElem?_eq_none (by omega)]
      rfl
  have htk : takeExact esDigito 4 (l.drop i) =
      some ([l[i], l[i + 1], l[i + 2], l[i + 3]], l.drop (i + 4)) := by
    rw [e0, e1, e2, e3, takeExact_cons_pos hd0, takeExact_cons_pos hd1,
        takeExact_cons_pos hd2, takeExact_cons_pos hd3]
    rfl
  have hres : tryDigitosB 4 (prevAt none l i) (l.drop i) =
      some [l[i], l[i + 1], l[i + 2], l[i + 3]] := by
    rw [tryDigitosB_eq, if_neg (by simp [hprev2]), htk]
    show (if wordB (l.drop (i + 4)).head? = true then none
          else some [l[i], l[i + 1], l[i + 2], l[i + 3]]) = _
    rw [if_neg (show ¬ (wordB (l.drop (i + 4)).head? = true) by rw [hnext2]; decide)]
  rw [hres]
  rfl

/-- C6 counterexample: the spec's own scenario registration code
`CSOLRC93053123H800` (18 chars) contains a run of 4 consecutive digits
embedded in a longer alphanumeric sequence, yet the section output is
empty, because `\b(\d{4})\b` requires word boundaries around the run. -/
theorem claim_C6_counterexample :
    13 ≤ ("CSOLRC93053123H800" : String).length ∧
    tieneCuatroDigitosSeguidos ("CSOLRC93053123H800" : String).data = true ∧
    (extraerDatosDesdeClaveElector 2026 "CSOLRC93053123H800").seccion_clave = "" := by
  refine ⟨by decide, by decide, by decide⟩

/-- C6 amended: for every registration code of length ≥ 13 that contains
a standalone 4-digit run — four digit characters delimited on both sides
by the string ends or non-word characters, as the pattern's word
boundaries require — the decoder's section output is non-empty.  (A run
embedded inside a longer alphanumeric sequence is not matched: the
counterexample.) -/
theorem claim_C6_amended (anioActual : Nat) (clave : String)
    (h13 : 13 ≤ clave.length) (h : ∃ i, EsRunAislado clave.data i) :
    (extraerDatosDesdeClaveElector anioActual clave).seccion_clave ≠ "" := by
  obtain ⟨i, hi⟩ := h
  have hlen : clave.length = clave.data.length := rfl
  have hsome : (searchAux (tryDigitosB 4) none clave.data).isSome = true :=
    searchAux_isSome _ clave.data none i (by have := hi.1; omega) (tryDigitosB4_at hi)
  obtain ⟨g, hg⟩ := Option.isSome_iff_exists.mp hsome
  have hglen : g.length = 4 :=
    searchAux_sound (P := fun r => r.length = 4)
      (fun _ _ _ hr => tryDigitosB_sound hr) none clave.data g hg
  simp only [extraerDatosDesdeClaveElector,
    if_neg (show ¬ (clave.data.length < 13) by omega), hg]
  intro hcon
  have hgnil : g = [] := by simpa [String.ext_iff] using hcon
  rw [hgnil] at hglen
  cases hglen

/-- C6 amended witness: a code with a space-delimited 4-digit run yields
a non-empty section. -/
theorem claim_C6_amended_witness :
    (extraerDatosDesdeClaveElector 2026 "AB 1234 XY 56789").seccion_clave ≠ "" :=
  claim_C6_amended 2026 "AB 1234 XY 56789" (by decide) ⟨3, by decide⟩

/-! ## C7: ordering at the final validity fallback -/

theorem buscarEnLista_vigLoose_cons (y : Nat) (line : String) (rest : List String) :
    buscarEnLista y Patron.vigLoose (line :: rest) =
      match searchAux tryVigLoose none line.data with
      | some v => if validaVigencia v = true then (⟨v⟩ : String)
                  else buscarEnLista y Patron.vigLoose rest
      | none => buscarEnLista y Patron.vigLoose rest := rfl

theorem buscarEnLista_fecha_cons (y : Nat) (line : String) (rest : List String) :
    buscarEnLista y Patron.fecha (line :: rest) =
      match searchAux tryFecha none line.data with
      | some f => if fechaValida y f = true then (⟨f⟩ : String)
                  else buscarEnLista y Patron.fecha rest
      | none => buscarEnLista y Patron.fecha rest := rfl

/-- C7 counterexample: at the claim's own example input `"1800 - 1700"`
the dedicated extractor returns empty AND the assembled record's validity
field is empty — not the unordered pair — because the fallback pattern
`(\d{4}\s*[-]?\s*?\d{4})` contains the substring `\d{4}\s*[-]`, which
routes `buscar_en_lista` into its validity-validation branch enforcing
`second > first`. -/
theorem claim_C7_counterexample :
    extraerVigenciaCorrecta ["1800 - 1700"] "D" = "" ∧
    (extraerCamposIneMejorado 2026 ["1800 - 1700"]).map Campos.vigencia = some "" :=
  ⟨by decide, by decide⟩

/-- C7 amended: the final-resort validity fallback DOES apply the
ordering check (its pattern string contains `\d{4}\s*[-]`, so
`buscar_en_lista` validates): whenever the fallback picker returns a
non-empty string, its two 4-digit years are in `[1900, 2099]` with the
second strictly greater than the first; there is no input on which it
yields a `later - earlier` pair. -/
theorem claim_C7_amended (anioActual : Nat) (lineas : List String)
    (h : buscarEnLista anioActual Patron.vigLoose lineas ≠ "") :
    ∃ a b,
      (findall4 (buscarEnLista anioActual Patron.vigLoose lineas).data).map natOfDigits
        = [a, b] ∧
      1900 ≤ a ∧ a ≤ 2099 ∧ 1900 ≤ b ∧ b ≤ 2099 ∧ a < b := by
  induction lineas with
  | nil => simp [buscarEnLista] at h
  | cons line rest ih =>
    cases hm : searchAux tryVigLoose none line.data with
    | none =>
      have hEq : buscarEnLista anioActual Patron.vigLoose (line :: rest) =
          buscarEnLista anioActual Patron.vigLoose rest := by
        rw [buscarEnLista_vigLoose_cons, hm]
      rw [hEq] at h ⊢
      exact ih h
    | some v =>
      have hEq : buscarEnLista anioActual Patron.vigLoose (line :: rest) =
          if validaVigencia v = true then (⟨v⟩ : String)
          else buscarEnLista anioActual Patron.vigLoose rest := by
        rw [buscarEnLista_vigLoose_cons, hm]
      by_cases hv : validaVigencia v = true
      · rw [hEq, if_pos hv] at h ⊢
        unfold validaVigencia at hv
        split at hv
        · next y1 y2 heq =>
          simp only [Bool.and_eq_true, decide_eq_true_eq] at hv
          obtain ⟨⟨⟨⟨hb1, hb2⟩, hb3⟩, hb4⟩, hb5⟩ := hv
          refine ⟨natOfDigits y1, natOfDigits y2, ?_, hb1, hb2, hb3, hb4, hb5⟩
          show (findall4 v).map natOfDigits = _
          rw [heq]
          rfl
        · cases hv
      · rw [hEq, if_neg hv] at h ⊢
        exact ih h

/-- C7 amended witness: a well-ordered pair is accepted by the fallback
and satisfies the ordering guarantee. -/
theorem claim_C7_amended_witness :
    buscarEnLista 2026 Patron.vigLoose ["2021-2031"] ≠ "" ∧
    (∃ a b,
      (findall4 (buscarEnLista 2026 Patron.vigLoose ["2021-2031"]).data).map natOfDigits
        = [a, b] ∧
      1900 ≤ a ∧ a ≤ 2099 ∧ 1900 ≤ b ∧ b ≤ 2099 ∧ a < b) :=
  ⟨by decide, claim_C7_amended 2026 ["2021-2031"] (by decide)⟩

/-! ## C10: the birth-date field picker's plausibility bounds -/

/-- C10: whenever the date picker returns a non-empty string, the string
splits on `/` into day, month and year integers with day in `[1, 31]`,
month in `[1, 12]` and year in `[1900, current year]`; and a line whose
first date match fails these bounds is skipped, the scan continuing with
the later lines. -/
theorem claim_C10 (anioActual : Nat) :
    (∀ lineas : List String, buscarEnLista anioActual Patron.fecha lineas ≠ "" →
      ∃ d m a : List Char, ∃ dia mes anio : Int,
        splitSlash (buscarEnLista anioActual Patron.fecha lineas).data = [d, m, a] ∧
        pyIntOpt d = some dia ∧ pyIntOpt m = some mes ∧ pyIntOpt a = some anio ∧
        1 ≤ dia ∧ dia ≤ 31 ∧ 1 ≤ mes ∧ mes ≤ 12 ∧
        1900 ≤ anio ∧ anio ≤ (anioActual : Int)) ∧
    (∀ (l : String) (ls : List String) (f : List Char),
      searchAux tryFecha none l.data = some f →
      fechaValida anioActual f = false →
      buscarEnLista anioActual Patron.fecha (l :: ls) =
        buscarEnLista anioActual Patron.fecha ls) := by
  constructor
  · intro lineas h
    induction lineas with
    | nil => simp [buscarEnLista] at h
    | cons line rest ih =>
      cases hm : searchAux tryFecha none line.data with
      | none =>
        have hEq : buscarEnLista anioActual Patron.fecha (line :: rest) =
            buscarEnLista anioActual Patron.fecha rest := by
          rw [buscarEnLista_fecha_cons, hm]
        rw [hEq] at h ⊢
        exact ih h
      | some f =>
        have hEq : buscarEnLista anioActual Patron.fecha (line :: rest) =
            if fechaValida anioActual f = true then (⟨f⟩ : String)
            else buscarEnLista anioActual Patron.fecha rest := by
          rw [buscarEnLista_fecha_cons, hm]
        by_cases hv : fechaValida anioActual f = true
        · rw [hEq, if_pos hv] at h ⊢
          unfold fechaValida at hv
          split at hv
          · next d m a heq =>
            split at hv
            · next dia mes anio hd hm2 ha =>
              simp only [Bool.and_eq_true, decide_eq_true_eq] at hv
              obtain ⟨⟨⟨⟨⟨hb1, hb2⟩, hb3⟩, hb4⟩, hb5⟩, hb6⟩ := hv
              exact ⟨d, m, a, dia, mes, anio, heq, hd, hm2, ha,
                hb1, hb2, hb3, hb4, hb5, hb6⟩
            · cases hv
          · cases hv
        · rw [hEq, if_neg hv] at h ⊢
          exact ih h
  · intro l ls f hm hv
    rw [buscarEnLista_fecha_cons, hm]
    show (if fechaValida anioActual f = true then (⟨f⟩ : String)
        else buscarEnLista anioActual Patron.fecha ls) = _
    rw [if_neg (by simp [hv])]

/-! ## C5: the Name Extractor invariant -/

theorem lineaCandidata_sound {s0 s : String} (h : lineaCandidata s0 = some s) :
    hasDigitL s.data = false := by
  unfold lineaCandidata at h
  dsimp only [] at h
  split at h
  · exact Option.noConfusion h
  · split at h
    · exact Option.noConfusion h
    · split at h
      · exact Option.noConfusion h
      · split at h
        · exact Option.noConfusion h
        · split at h
          · exact Option.noConfusion h
          · next hdig =>
            split at h
            · exact Option.noConfusion h
            · cases h
              exact noDigit_of_strip_upper (Bool.not_eq_true _ ▸ hdig)

theorem recolectaGH_noDigit :
    ∀ {ls : List String} {x : String}, x ∈ recolectaGH ls → hasDigitL x.data = false := by
  intro ls
  induction ls with
  | nil => intro x h; simp [recolectaGH] at h
  | cons l ls2 ih =>
    intro x h
    unfold recolectaGH at h
    dsimp only [] at h
    split at h
    · simp at h
    · split at h
      · exact ih h
      · split at h
        · exact ih h
        · split at h
          · next hdig =>
            exact ih h
          · next hdig =>
            split at h
            · exact ih h
            · rcases List.mem_cons.mp h with rfl | hx
              · exact noDigit_of_strip_upper (Bool.not_eq_true _ ▸ hdig)
              · exact ih hx

theorem aceptaNombre_sound {nc n : String} (h : aceptaNombre nc = some n) :
    n = nc ∧ 2 ≤ (pySplit n).length := by
  unfold aceptaNombre at h
  split at h
  · next h2 =>
    cases h
    exact ⟨rfl, h2⟩
  · exact Option.noConfusion h

theorem aceptaNombreInline_sound {nc n : String} (h : aceptaNombreInline nc = some n) :
    n = nc ∧ 2 ≤ (pySplit n).length ∧ hasDigitL n.data = false := by
  unfold aceptaNombreInline at h
  dsimp only [] at h
  split at h
  · next hcond =>
    cases h
    simp only [Bool.and_eq_true, Bool.not_eq_true', decide_eq_true_eq] at hcond
    obtain ⟨⟨⟨h2, _⟩, _⟩, hnd⟩ := hcond
    exact ⟨rfl, h2, noDigit_of_upper hnd⟩
  · exact Option.noConfusion h

theorem noDigit_aceptaNombre {cands : List String} {n : String}
    (hall : ∀ t ∈ cands, hasDigitL t.data = false)
    (h : aceptaNombre (pyStrip (limpiarYValidarNombre (pyStrip (joinSp cands)))) = some n) :
    hasDigitL n.data = false ∧ 2 ≤ (pySplit n).length := by
  obtain ⟨rfl, h2⟩ := aceptaNombre_sound h
  exact ⟨noDigit_pyStripL (noDigit_limpiar (noDigit_pyStripL (noDigit_joinSp hall))), h2⟩

theorem noDigit_aceptaNombre1 {line n : String}
    (hd : hasDigitL (pyStripL (upperL line.data)) = false)
    (h : aceptaNombre (pyStrip (limpiarYValidarNombre (pyStrip line))) = some n) :
    hasDigitL n.data = false ∧ 2 ≤ (pySplit n).length := by
  obtain ⟨rfl, h2⟩ := aceptaNombre_sound h
  exact ⟨noDigit_pyStripL (noDigit_limpiar (noDigit_pyStripL (noDigit_of_strip_upper hd))), h2⟩

theorem estrategiaDomicilio_sound {tl : List String} {n : String}
    (h : estrategiaDomicilio tl = some n) :
    hasDigitL n.data = false ∧ 2 ≤ (pySplit n).length := by
  unfold estrategiaDomicilio at h
  cases hidx : tl.findIdx? (fun line => contiene (pyUpper line) "DOMICILIO") with
  | none => rw [hidx] at h; exact Option.noConfusion h
  | some i =>
    rw [hidx] at h
    dsimp only [] at h
    split at h
    · exact Option.noConfusion h
    · refine noDigit_aceptaNombre ?_ h
      intro t ht
      have hsub := List.drop_subset _ _ ht
      obtain ⟨a, _, ha⟩ := List.mem_filterMap.mp hsub
      exact lineaCandidata_sound ha

theorem estrategiaEtiquetaGH_sound (tl : List String) :
    ∀ (rest : List String) (i : Nat) {n : String},
      estrategiaEtiquetaGHAux tl i rest = some n →
      hasDigitL n.data = false ∧ 2 ≤ (pySplit n).length := by
  intro rest
  induction rest with
  | nil => intro i n h; exact Option.noConfusion h
  | cons line ls ih =>
    intro i n h
    unfold estrategiaEtiquetaGHAux at h
    dsimp only [] at h
    split at h
    · split at h
      · next r heq =>
        cases h
        exact noDigit_aceptaNombre (fun t ht => recolectaGH_noDigit ht) heq
      · exact ih (i + 1) h
    · exact ih (i + 1) h

theorem estrategiaInlineGH_sound :
    ∀ {ls : List String} {n : String},
      estrategiaInlineGH ls = some n →
      hasDigitL n.data = false ∧ 2 ≤ (pySplit n).length := by
  intro ls
  induction ls with
  | nil => intro n h; exact Option.noConfusion h
  | cons line rest ih =>
    intro n h
    unfold estrategiaInlineGH at h
    dsimp only [] at h
    cases hm : searchAux tryNombreInline none (pyUpper line).data with
    | none => rw [hm] at h; exact ih h
    | some g =>
      rw [hm] at h
      simp only [] at h
      split at h
      · next r heq =>
        cases h
        obtain ⟨rfl, h2, hnd⟩ := aceptaNombreInline_sound heq
        exact ⟨hnd, h2⟩
      · exact ih h

theorem estrategiaFallback_sound :
    ∀ {ls : List String} {n : String},
      estrategiaFallback ls = some n →
      hasDigitL n.data = false ∧ 2 ≤ (pySplit n).length := by
  intro ls
  induction ls with
  | nil => intro n h; exact Option.noConfusion h
  | cons line rest ih =>
    intro n h
    unfold estrategiaFallback at h
    dsimp only [] at h
    split at h
    · exact ih h
    · split at h
      · exact ih h
      · split at h
        · exact ih h
        · split at h
          · exact ih h
          · split at h
            · next hdig =>
              exact ih h
            · next hdig =>
              split at h
              · next r heq =>
                cases h
                exact noDigit_aceptaNombre1 (Bool.not_eq_true _ ▸ hdig) heq
              · exact ih h

theorem extraerNombre_eq (texts : List String) (tipo : String) :
    extraerNombreMejorado texts tipo =
      (match estrategiaDomicilio (normalizarTextos texts) with
       | some n => n
       | none =>
         match (if (tipo == "GH") = true then
             (match estrategiaEtiquetaGHAux (normalizarTextos texts) 0 (normalizarTextos texts) with
              | some n => some n
              | none => estrategiaInlineGH (normalizarTextos texts))
           else none) with
         | some n => n
         | none => (estrategiaFallback (normalizarTextos texts)).getD "") := rfl

/-- C5: for every list of OCR lines and credential type, the Name
Extractor's result contains no digit character, and a non-empty result
has at least 2 whitespace-separated tokens. -/
theorem claim_C5 (texts : List String) (tipo : String) :
    hasDigitL (extraerNombreMejorado texts tipo).data = false ∧
    (extraerNombreMejorado texts tipo ≠ "" →
      2 ≤ (pySplit (extraerNombreMejorado texts tipo)).length) := by
  rw [extraerNombre_eq]
  cases h0 : estrategiaDomicilio (normalizarTextos texts) with
  | some n =>
    obtain ⟨hd, ht⟩ := estrategiaDomicilio_sound h0
    exact ⟨hd, fun _ => ht⟩
  | none =>
    by_cases htipo : (tipo == "GH") = true
    · rw [if_pos htipo]
      cases h1 : estrategiaEtiquetaGHAux (normalizarTextos texts) 0 (normalizarTextos texts) with
      | some n =>
        obtain ⟨hd, ht⟩ := estrategiaEtiquetaGH_sound _ _ _ h1
        exact ⟨hd, fun _ => ht⟩
      | none =>
        cases h2 : estrategiaInlineGH (normalizarTextos texts) with
        | some n =>
          obtain ⟨hd, ht⟩ := estrategiaInlineGH_sound h2
          exact ⟨hd, fun _ => ht⟩
        | none =>
          cases h3 : estrategiaFallback (normalizarTextos texts) with
          | some n =>
            obtain ⟨hd, ht⟩ := estrategiaFallback_sound h3
            exact ⟨hd, fun _ => ht⟩
          | none => exact ⟨rfl, fun hne => absurd rfl hne⟩
    · rw [if_neg htipo]
      cases h3 : estrategiaFallback (normalizarTextos texts) with
      | some n =>
        obtain ⟨hd, ht⟩ := estrategiaFallback_sound h3
        exact ⟨hd, fun _ => ht⟩
      | none => exact ⟨rfl, fun hne => absurd rfl hne⟩

/-- C5 witness: a concrete input with a non-empty extracted name. -/
theorem claim_C5_witness :
    hasDigitL (extraerNombreMejorado ["JUAN PEREZ GARCIA"] "D").data = false ∧
    2 ≤ (pySplit (extraerNombreMejorado ["JUAN PEREZ GARCIA"] "D")).length :=
  ⟨(claim_C5 ["JUAN PEREZ GARCIA"] "D").1,
   (claim_C5 ["JUAN PEREZ GARCIA"] "D").2 (by decide)⟩

/-- C10 witness: a plausible date is returned with its bounds; a line with
a future-dated match (year 2093 > 2026) is skipped. -/
theorem claim_C10_witness :
    (∃ d m a : List Char, ∃ dia mes anio : Int,
      splitSlash (buscarEnLista 2026 Patron.fecha ["01/02/1993"]).data = [d, m, a] ∧
      pyIntOpt d = some dia ∧ pyIntOpt m = some mes ∧ pyIntOpt a = some anio ∧
      1 ≤ dia ∧ dia ≤ 31 ∧ 1 ≤ mes ∧ mes ≤ 12 ∧
      1900 ≤ anio ∧ anio ≤ (2026 : Int)) ∧
    buscarEnLista 2026 Patron.fecha ["31/05/2093", "x"] =
      buscarEnLista 2026 Patron.fecha ["x"] :=
  ⟨(claim_C10 2026).1 ["01/02/1993"] (by decide),
   (claim_C10 2026).2 "31/05/2093" ["x"] ("31/05/2093" : String).data (by decide) (by decide)⟩

/-! ## C2: validity-period format and ordering -/

theorem list_len4 {α : Type} {l : List α} (h : l.length = 4) :
    ∃ a b c d, l = [a, b, c, d] := by
  cases l with
  | nil => simp at h
  | cons a t =>
    cases t with
    | nil => simp at h
    | cons b t =>
      cases t with
      | nil => simp at h
      | cons c t =>
        cases t with
        | nil => simp at h
        | cons d t =>
          cases t with
          | nil => exact ⟨a, b, c, d, rfl⟩
          | cons e t => simp at h

theorem findall4_nondigit_head {a : Char} {t : List Char}
    (ha : esDigito a = false) : findall4 (a :: t) = findall4 t := by
  match t with
  | [] => rfl
  | [b] => rfl
  | [b, c] => rfl
  | b :: c :: d :: r => simp [findall4, ha]

theorem findall4_nondigits_prefix {mid l : List Char}
    (hm : ∀ c ∈ mid, esDigito c = false) :
    findall4 (mid ++ l) = findall4 l := by
  induction mid with
  | nil => rfl
  | cons a t ih =>
    rw [List.cons_append, findall4_nondigit_head (hm a (List.mem_cons_self a t))]
    exact ih (fun c hc => hm c (List.mem_cons_of_mem a hc))

theorem findall4_digits4 {w x y z : Char} (t : List Char)
    (hw : esDigito w = true) (hx : esDigito x = true)
    (hy : esDigito y = true) (hz : esDigito z = true) :
    findall4 (w :: x :: y :: z :: t) = [w, x, y, z] :: findall4 t := by
  simp [findall4, hw, hx, hy, hz]

theorem findall4_estructura {a1 a2 a3 a4 b1 b2 b3 b4 : Char} {s1 s2 : List Char}
    (ha1 : esDigito a1 = true) (ha2 : esDigito a2 = true)
    (ha3 : esDigito a3 = true) (ha4 : esDigito a4 = true)
    (hb1 : esDigito b1 = true) (hb2 : esDigito b2 = true)
    (hb3 : esDigito b3 = true) (hb4 : esDigito b4 = true)
    (hs1 : ∀ c ∈ s1, pyIsSpace c = true) (hs2 : ∀ c ∈ s2, pyIsSpace c = true) :
    findall4 ([a1, a2, a3, a4] ++ s1 ++ '-' :: (s2 ++ [b1, b2, b3, b4]))
      = [[a1, a2, a3, a4], [b1, b2, b3, b4]] := by
  have hmid : ∀ c ∈ s1 ++ '-' :: s2, esDigito c = false := by
    intro c hc
    rcases List.mem_append.mp hc with hx | hx
    · exact espacio_no_digito (hs1 c hx)
    · rcases List.mem_cons.mp hx with rfl | hx
      · decide
      · exact espacio_no_digito (hs2 c hx)
  have e : [a1, a2, a3, a4] ++ s1 ++ '-' :: (s2 ++ [b1, b2, b3, b4])
      = a1 :: a2 :: a3 :: a4 :: ((s1 ++ '-' :: s2) ++ [b1, b2, b3, b4]) := by
    simp
  rw [e, findall4_digits4 _ ha1 ha2 ha3 ha4, findall4_nondigits_prefix hmid,
    findall4_digits4 _ hb1 hb2 hb3 hb4]
  rfl

theorem reemplazaGuion_no_guion {l : List Char}
    (h : ∀ c ∈ l, (c == '-') = false) : reemplazaGuion l = l := by
  induction l with
  | nil => rfl
  | cons c t ih =>
    have hc := h c (List.mem_cons_self c t)
    have ht : reemplazaGuion t = t := ih (fun a ha => h a (List.mem_cons_of_mem _ ha))
    calc reemplazaGuion (c :: t)
        = (if c == '-' then [' ', '-', ' '] else [c]) ++ reemplazaGuion t := by
          simp [reemplazaGuion, List.flatMap_cons]
      _ = c :: t := by rw [if_neg (by simp [hc]), List.singleton_append, ht]

theorem reemplazaGuion_append (l1 l2 : List Char) :
    reemplazaGuion (l1 ++ l2) = reemplazaGuion l1 ++ reemplazaGuion l2 := by
  simp [reemplazaGuion, List.flatMap_append]

theorem reemplazaGuion_guion (t : List Char) :
    reemplazaGuion ('-' :: t) = ' ' :: '-' :: ' ' :: reemplazaGuion t := by
  simp [reemplazaGuion, List.flatMap_cons]

theorem pyStripL_noop {l : List Char}
    (h1 : ∀ c, l.head? = some c → pyIsSpace c = false)
    (h2 : ∀ c, l.getLast? = some c → pyIsSpace c = false) :
    pyStripL l = l := by
  unfold pyStripL
  have e1 : l.dropWhile pyIsSpace = l := by
    cases l with
    | nil => rfl
    | cons a t => rw [List.dropWhile_cons, if_neg (by simp [h1 a rfl])]
  rw [e1]
  have e2 : l.reverse.dropWhile pyIsSpace = l.reverse := by
    cases hr : l.reverse with
    | nil => rfl
    | cons b t' =>
      have hb : l.getLast? = some b := by rw [← List.head?_reverse, hr]; rfl
      rw [List.dropWhile_cons, if_neg (by simp [h2 b hb])]
  rw [e2, List.reverse_reverse]

theorem collapseAux_nonspace {c : Char} (b : Bool) (t : List Char)
    (hc : pyIsSpace c = false) :
    collapseAux b (c :: t) = c :: collapseAux false t := by
  simp only [collapseAux]
  rw [if_neg (by simp [hc])]

theorem collapseAux_space_true {c : Char} (cs : List Char) (hc : pyIsSpace c = true) :
    collapseAux true (c :: cs) = collapseAux true cs := by
  simp only [collapseAux]
  rw [if_pos hc, if_pos trivial]

theorem collapseAux_space_false {c : Char} (cs : List Char) (hc : pyIsSpace c = true) :
    collapseAux false (c :: cs) = ' ' :: collapseAux true cs := by
  simp only [collapseAux]
  rw [if_pos hc, if_neg (by simp)]

theorem collapseAux_true_spaces (run : List Char) (rest : List Char)
    (hrun : ∀ c ∈ run, pyIsSpace c = true) :
    collapseAux true (run ++ rest) = collapseAux true rest := by
  induction run with
  | nil => rfl
  | cons c t ih =>
    rw [List.cons_append, collapseAux_space_true _ (hrun c (List.mem_cons_self c t))]
    exact ih (fun a ha => hrun a (List.mem_cons_of_mem _ ha))

theorem collapseAux_false_spaces (run : List Char) (rest : List Char)
    (hne : run ≠ []) (hrun : ∀ c ∈ run, pyIsSpace c = true) :
    collapseAux false (run ++ rest) = ' ' :: collapseAux true rest := by
  cases run with
  | nil => exact absurd rfl hne
  | cons c t =>
    rw [List.cons_append, collapseAux_space_false _ (hrun c (List.mem_cons_self c t)),
      collapseAux_true_spaces t rest (fun a ha => hrun a (List.mem_cons_of_mem _ ha))]

theorem normVig_estructura {a1 a2 a3 a4 b1 b2 b3 b4 : Char} {s1 s2 : List Char}
    (ha1 : esDigito a1 = true) (ha2 : esDigito a2 = true)
    (ha3 : esDigito a3 = true) (ha4 : esDigito a4 = true)
    (hb1 : esDigito b1 = true) (hb2 : esDigito b2 = true)
    (hb3 : esDigito b3 = true) (hb4 : esDigito b4 = true)
    (hs1 : ∀ c ∈ s1, pyIsSpace c = true) (hs2 : ∀ c ∈ s2, pyIsSpace c = true) :
    normVig ([a1, a2, a3, a4] ++ s1 ++ '-' :: (s2 ++ [b1, b2, b3, b4]))
      = ⟨[a1, a2, a3, a4, ' ', '-', ' ', b1, b2, b3, b4]⟩ := by
  have hg1 : ∀ c ∈ ([a1, a2, a3, a4] : List Char), (c == '-') = false := by
    intro c hc
    simp only [List.mem_cons, List.not_mem_nil, or_false] at hc
    rcases hc with rfl | rfl | rfl | rfl
    · exact esDigito_no_guion ha1
    · exact esDigito_no_guion ha2
    · exact esDigito_no_guion ha3
    · exact esDigito_no_guion ha4
  have hg2 : ∀ c ∈ ([b1, b2, b3, b4] : List Char), (c == '-') = false := by
    intro c hc
    simp only [List.mem_cons, List.not_mem_nil, or_false] at hc
    rcases hc with rfl | rfl | rfl | rfl
    · exact esDigito_no_guion hb1
    · exact esDigito_no_guion hb2
    · exact esDigito_no_guion hb3
    · exact esDigito_no_guion hb4
  have e1 : reemplazaGuion ([a1, a2, a3, a4] ++ s1 ++ '-' :: (s2 ++ [b1, b2, b3, b4]))
      = [a1, a2, a3, a4] ++ s1 ++ ' ' :: '-' :: ' ' :: (s2 ++ [b1, b2, b3, b4]) := by
    rw [reemplazaGuion_append, reemplazaGuion_append, reemplazaGuion_guion,
      reemplazaGuion_append,
      reemplazaGuion_no_guion hg1,
      reemplazaGuion_no_guion (fun c hc => espacio_no_guion (hs1 c hc)),
      reemplazaGuion_no_guion (fun c hc => espacio_no_guion (hs2 c hc)),
      reemplazaGuion_no_guion hg2]
  have e2 : pyStripL ([a1, a2, a3, a4] ++ s1 ++ ' ' :: '-' :: ' ' :: (s2 ++ [b1, b2, b3, b4]))
      = [a1, a2, a3, a4] ++ s1 ++ ' ' :: '-' :: ' ' :: (s2 ++ [b1, b2, b3, b4]) := by
    apply pyStripL_noop
    · intro c hc
      simp only [List.cons_append, List.head?_cons, Option.some.injEq] at hc
      rw [← hc]
      exact esDigito_no_espacio ha1
    · intro c hc
      have er : ([a1, a2, a3, a4] ++ s1 ++ ' ' :: '-' :: ' ' :: (s2 ++ [b1, b2, b3, b4]))
          = ([a1, a2, a3, a4] ++ s1 ++ ' ' :: '-' :: ' ' :: (s2 ++ [b1, b2, b3])) ++ [b4] := by
        simp
      rw [er, List.getLast?_concat] at hc
      injection hc with hc
      rw [← hc]
      exact esDigito_no_espacio hb4
  have e3 : collapseWS ([a1, a2, a3, a4] ++ s1 ++ ' ' :: '-' :: ' ' :: (s2 ++ [b1, b2, b3, b4]))
      = [a1, a2, a3, a4, ' ', '-', ' ', b1, b2, b3, b4] := by
    unfold collapseWS
    have ec : ([a1, a2, a3, a4] ++ s1 ++ ' ' :: '-' :: ' ' :: (s2 ++ [b1, b2, b3, b4]))
        = a1 :: a2 :: a3 :: a4 ::
            ((s1 ++ [' ']) ++ '-' :: ((' ' :: s2) ++ [b1, b2, b3, b4])) := by
      simp
    rw [ec,
      collapseAux_nonspace false _ (esDigito_no_espacio ha1),
      collapseAux_nonspace false _ (esDigito_no_espacio ha2),
      collapseAux_nonspace false _ (esDigito_no_espacio ha3),
      collapseAux_nonspace false _ (esDigito_no_espacio ha4),
      collapseAux_false_spaces (s1 ++ [' ']) _ (by simp)
        (by
          intro c hc
          rcases List.mem_append.mp hc with hx | hx
          · exact hs1 c hx
          · rcases List.mem_cons.mp hx with rfl | hx
            · decide
            · exact absurd hx (List.not_mem_nil c)),
      collapseAux_nonspace true _ (by decide),
      collapseAux_false_spaces (' ' :: s2) _ (by simp)
        (by
          intro c hc
          rcases List.mem_cons.mp hc with rfl | hx
          · decide
          · exact hs2 c hx),
      collapseAux_nonspace true _ (esDigito_no_espacio hb1),
      collapseAux_nonspace false _ (esDigito_no_espacio hb2),
      collapseAux_nonspace false _ (esDigito_no_espacio hb3),
      collapseAux_nonspace false _ (esDigito_no_espacio hb4)]
    rfl
  unfold normVig
  rw [e1, e2, e3]

theorem tryVigDirect_sound {prev : Option Char} {l : List Char}
    {d1 s1 s2 d2 : List Char}
    (h : tryVigDirect prev l = some (d1, s1, s2, d2)) :
    d1.length = 4 ∧ d1.all esDigito = true ∧ s1.all pyIsSpace = true ∧
      s2.all pyIsSpace = true ∧ d2.length = 4 ∧ d2.all esDigito = true := by
  unfold tryVigDirect at h
  split at h
  · exact Option.noConfusion h
  split at h
  all_goals try exact Option.noConfusion h
  rename_i d1' r1 heq1
  try dsimp only [] at h
  split at h
  all_goals try exact Option.noConfusion h
  rename_i r3 heq2
  try dsimp only [] at h
  split at h
  all_goals try exact Option.noConfusion h
  rename_i d2' r5 heq3
  split at h
  · exact Option.noConfusion h
  simp only [Option.some.injEq, Prod.mk.injEq] at h
  obtain ⟨hA, hB, hC, hD⟩ := h
  subst hA; subst hB; subst hC; subst hD
  obtain ⟨hl1, ha1, -⟩ := takeExact_spec heq1
  obtain ⟨hl2, ha2, -⟩ := takeExact_spec heq3
  refine ⟨hl1, ha1, ?_, ?_, hl2, ha2⟩
  · rw [List.span_eq_take_drop]
    exact List.all_takeWhile
  · rw [List.span_eq_take_drop]
    exact List.all_takeWhile

theorem vigLoop2_noVig (tl : List String) :
    ∀ (rest : List String) (i : Nat),
      (∀ l ∈ rest, contiene (pyUpper l) "VIGENCIA" = false) →
      vigLoop2 tl i rest = none := by
  intro rest
  induction rest with
  | nil => intro i _; rfl
  | cons line ls ih =>
    intro i hnv
    unfold vigLoop2
    try dsimp only []
    rw [if_neg (by simp [hnv line (List.mem_cons_self line ls)])]
    exact ih (i + 1) (fun l hl => hnv l (List.mem_cons_of_mem _ hl))

theorem vigLoop1_sound (tl : List String) :
    ∀ (rest : List String) (v : String),
      (∀ l ∈ rest, contiene (pyUpper l) "VIGENCIA" = false) →
      vigLoop1 tl rest = some v →
      ∃ a b : Nat, formatoVigencia v = true ∧
        (findall4 v.data).map natOfDigits = [a, b] ∧
        1900 ≤ a ∧ a ≤ 2099 ∧ 1900 ≤ b ∧ b ≤ 2099 ∧ b > a := by
  intro rest
  induction rest with
  | nil => intro v hnv h; exact Option.noConfusion h
  | cons line ls ih =>
    intro v hnv h
    have hline := hnv line (List.mem_cons_self line ls)
    have hrec : ∀ l ∈ ls, contiene (pyUpper l) "VIGENCIA" = false :=
      fun l hl => hnv l (List.mem_cons_of_mem _ hl)
    unfold vigLoop1 at h
    try dsimp only [] at h
    rw [if_neg (by simp [hline])] at h
    simp only [] at h
    cases hm : searchAux tryVigDirect none line.data with
    | none =>
      try rw [hm] at h
      simp only [] at h
      exact ih v hrec h
    | some t =>
      have hcomp := searchAux_sound
        (P := fun t : List Char × List Char × List Char × List Char =>
          t.1.length = 4 ∧ t.1.all esDigito = true ∧ t.2.1.all pyIsSpace = true ∧
          t.2.2.1.all pyIsSpace = true ∧ t.2.2.2.length = 4 ∧ t.2.2.2.all esDigito = true)
        (fun prev l r hr => by
          obtain ⟨e1, e2, e3, e4⟩ := r
          exact tryVigDirect_sound hr)
        none line.data t hm
      obtain ⟨d1, s1, s2, d2⟩ := t
      obtain ⟨hL1, hD1, hS1, hS2, hL2, hD2⟩ := hcomp
      try rw [hm] at h
      simp only [] at h
      try dsimp only [] at h
      obtain ⟨a1, a2, a3, a4, rfl⟩ := list_len4 hL1
      obtain ⟨b1, b2, b3, b4, rfl⟩ := list_len4 hL2
      simp only [List.all_cons, List.all_nil, Bool.and_true, Bool.and_eq_true] at hD1 hD2
      obtain ⟨ha1, ha2, ha3, ha4⟩ := hD1
      obtain ⟨hb1, hb2, hb3, hb4⟩ := hD2
      have hs1 : ∀ c ∈ s1, pyIsSpace c = true := fun c hc => by
        have := List.all_eq_true.mp hS1 c hc
        simpa using this
      have hs2 : ∀ c ∈ s2, pyIsSpace c = true := fun c hc => by
        have := List.all_eq_true.mp hS2 c hc
        simpa using this
      have hF := findall4_estructura ha1 ha2 ha3 ha4 hb1 hb2 hb3 hb4 hs1 hs2
      rw [hF] at h
      simp only [] at h
      split at h
      · next hcond =>
        injection h with hv
        subst hv
        simp only [Bool.and_eq_true, decide_eq_true_eq] at hcond
        obtain ⟨⟨⟨⟨hx1, hx2⟩, hx3⟩, hx4⟩, hx5⟩ := hcond
        rw [normVig_estructura ha1 ha2 ha3 ha4 hb1 hb2 hb3 hb4 hs1 hs2]
        refine ⟨natOfDigits [a1, a2, a3, a4], natOfDigits [b1, b2, b3, b4], ?_, ?_,
          hx1, hx2, hx3, hx4, hx5⟩
        · simp [formatoVigencia, ha1, ha2, ha3, ha4, hb1, hb2, hb3, hb4]
        · have eL : ([a1, a2, a3, a4] ++ [' '] ++ '-' :: ([' '] ++ [b1, b2, b3, b4]) : List Char)
              = [a1, a2, a3, a4, ' ', '-', ' ', b1, b2, b3, b4] := by simp
          show (findall4 ([a1, a2, a3, a4, ' ', '-', ' ', b1, b2, b3, b4])).map natOfDigits = _
          rw [← eL, findall4_estructura ha1 ha2 ha3 ha4 hb1 hb2 hb3 hb4
            (by intro c hc; simp only [List.mem_cons, List.not_mem_nil, or_false] at hc;
                subst hc; decide)
            (by intro c hc; simp only [List.mem_cons, List.not_mem_nil, or_false] at hc;
                subst hc; decide)]
          rfl
      · exact ih v hrec h

/-- C2 counterexample: on the single line `VIGENCIA 1800 - 1700` the
validity extractor returns the non-empty string `1800 - 1700`, whose two
4-digit years are 1800 and 1700: the second is NOT strictly greater than
the first (nor inside `[1900, 2099]`), contradicting the claim that every
non-empty output has its second year strictly greater than the first. -/
theorem claim_C2_counterexample :
    extraerVigenciaCorrecta ["VIGENCIA 1800 - 1700"] "GH" = "1800 - 1700" ∧
    extraerVigenciaCorrecta ["VIGENCIA 1800 - 1700"] "GH" ≠ "" ∧
    (findall4 (extraerVigenciaCorrecta ["VIGENCIA 1800 - 1700"] "GH").data).map natOfDigits
      = [1800, 1700] ∧
    ¬ (1700 > 1800) := by
  refine ⟨by decide, by decide, by decide, by decide⟩

/-- C2 (amended): when no normalized line contains `VIGENCIA` (so only the
validated direct-pattern branch of the extractor can fire), a non-empty
result of the Validity-Period Extractor matches `\d{4} - \d{4}` and its two
years lie in `[1900, 2099]` with the second strictly greater than the
first.  (The `VIGENCIA`-labelled same-line, next-line and year-collection
paths return without any format or ordering validation.) -/
theorem claim_C2_amended (texts : List String) (tipo : String)
    (hnv : ∀ l ∈ normalizarTextos texts, contiene (pyUpper l) "VIGENCIA" = false)
    (hne : extraerVigenciaCorrecta texts tipo ≠ "") :
    ∃ a b : Nat,
      formatoVigencia (extraerVigenciaCorrecta texts tipo) = true ∧
      (findall4 (extraerVigenciaCorrecta texts tipo).data).map natOfDigits = [a, b] ∧
      1900 ≤ a ∧ a ≤ 2099 ∧ 1900 ≤ b ∧ b ≤ 2099 ∧ b > a := by
  unfold extraerVigenciaCorrecta at hne ⊢
  try dsimp only [] at hne ⊢
  cases hm : vigLoop1 (normalizarTextos texts) (normalizarTextos texts) with
  | some v =>
    try rw [hm] at hne ⊢
    simp only [] at hne ⊢
    exact vigLoop1_sound _ _ v hnv hm
  | none =>
    try rw [hm] at hne
    simp only [] at hne
    rw [vigLoop2_noVig _ _ 0 hnv] at hne
    simp only [Option.getD_none] at hne
    exact absurd rfl hne

/-- C2 witness: on the unlabelled line `2021-2031` the extractor returns a
validated, correctly ordered period. -/
theorem claim_C2_amended_witness :
    ∃ a b : Nat,
      formatoVigencia (extraerVigenciaCorrecta ["2021-2031"] "GH") = true ∧
      (findall4 (extraerVigenciaCorrecta ["2021-2031"] "GH").data).map natOfDigits = [a, b] ∧
      1900 ≤ a ∧ a ≤ 2099 ∧ 1900 ≤ b ∧ b ≤ 2099 ∧ b > a :=
  claim_C2_amended ["2021-2031"] "GH" (by decide) (by decide)


end IneOcr
